import Mathlib

/-!
# Verification of the Medusa migration / sanity-check core

A shallow embedding, in Lean 4, of the versioned migration framework of the
Medusa repository:

* `src/medusa/config/migration.py` — the config migration chain
  (`ConfigMigrator.migrate_config` and the `_migrate_vN` steps),
* `src/medusa/config/setting.py` / `src/medusa/config/__init__.py` — the
  `check_*` setting helpers,
* `src/medusa/databases/main_db.py` — the DB sanity checker
  (`MainSanityCheck`) and the DB schema-upgrade steps.

Pure functions of the source become Lean functions; stateful code becomes
explicit state passing in a small state/except monad; Python exceptions
become `Except`/`Option` results.  External collaborators (file backup,
encryption, filesystem existence, the name parser, SQL engine row order)
are passed in as explicit parameters, as the spec treats them as opaque.
-/

namespace Medusa

/-! ## Python string primitives

`pySplitC`/`pyJoinC` embed Python's `str.split(sep)` / `sep.join(...)` for a
single-character separator, at the `List Char` level so that the round-trip
law is provable.  `pySplit`/`pyJoin` are the `String`-level wrappers used by
the embeddings. -/

/-- Python `s.split(sep)` for a one-character separator, on `List Char`:
every occurrence of `sep` ends a field; `[] ↦ [[]]` (Python `''.split('|')
== ['']`). -/
def pySplitC (sep : Char) : List Char → List (List Char)
  | [] => [[]]
  | c :: cs =>
    let rest := pySplitC sep cs
    if c = sep then [] :: rest
    else match rest with
      | [] => [[c]]
      | r :: rs => (c :: r) :: rs

/-- Python `sep.join(fields)` for a one-character separator, on `List Char`. -/
def pyJoinC (sep : Char) : List (List Char) → List Char
  | [] => []
  | [f] => f
  | f :: f' :: fs => f ++ sep :: pyJoinC sep (f' :: fs)

/-- Python `s.split(sep)` for a one-character separator. -/
def pySplit (sep : Char) (s : String) : List String :=
  (pySplitC sep s.data).map (fun l => ⟨l⟩)

/-- Python `sep.join(fields)` for a one-character separator. -/
def pyJoin (sep : Char) (fields : List String) : String :=
  ⟨pyJoinC sep (fields.map String.data)⟩

/-- Python `int(s)`: strip surrounding whitespace, optional sign, at least
one decimal digit; `none` models the `ValueError`. -/
def pyParseInt (s : String) : Option Int :=
  let t := (s.data.dropWhile Char.isWhitespace).reverse.dropWhile Char.isWhitespace |>.reverse
  let (sign, digits) :=
    match t with
    | '-' :: r => ((-1 : Int), r)
    | '+' :: r => ((1 : Int), r)
    | r => ((1 : Int), r)
  if digits ≠ [] ∧ digits.all Char.isDigit then
    some (sign * (digits.foldl (fun acc c => acc * 10 + (c.toNat - '0'.toNat)) 0 : Nat))
  else
    none

/-- Substring search on `List Char` (helper for `pyContains`). -/
def pyContainsC (needle : List Char) : List Char → Bool
  | [] => needle.isEmpty
  | c :: cs => needle.isPrefixOf (c :: cs) || pyContainsC needle cs

/-- Python `haystack.find(needle) != -1` (substring containment). -/
def pyContains (haystack needle : String) : Bool :=
  pyContainsC needle.data haystack.data

/-- Python `s.strip()`. -/
def pyStrip (s : String) : String :=
  ⟨(s.data.dropWhile Char.isWhitespace).reverse.dropWhile Char.isWhitespace |>.reverse⟩

/-- Python `s.lower()` (ASCII, as the sources use it). -/
def pyLower (s : String) : String := ⟨s.data.map Char.toLower⟩

/-- Python `s.upper()` (ASCII, as the sources use it). -/
def pyUpper (s : String) : String := ⟨s.data.map Char.toUpper⟩

/-- SQL `LIKE '%x'` on a rendered value: suffix test. -/
def pyEndsWith (s post : String) : Bool := post.data.isSuffixOf s.data

/-- Fuel-indexed worker for `pySplitOn` (structural recursion so that the
kernel can evaluate it; the fuel is the input length plus one). -/
def pySplitOnCFuel (sep : List Char) : Nat → List Char → List Char → List (List Char)
  | _, [], acc => [acc.reverse]
  | 0, l, acc => [acc.reverse ++ l]
  | fuel + 1, c :: cs, acc =>
    if sep.isPrefixOf (c :: cs) then
      acc.reverse :: pySplitOnCFuel sep fuel ((c :: cs).drop sep.length) []
    else
      pySplitOnCFuel sep fuel cs (c :: acc)

/-- Python `s.split(sep)` for a multi-character separator (used for the
`'!!!'`-delimited provider lists): greedy left-to-right,
non-overlapping. -/
def pySplitOn (sep s : String) : List String :=
  if sep = "" then [s]
  else (pySplitOnCFuel sep.data (s.data.length + 1) s.data []).map (fun l => ⟨l⟩)

/-! ## `_migrate_v5`: the metadata-format upgrade

Embeds the inner `_migrate_metadata(metadata, metadata_name, use_banner)`
of `ConfigMigrator._migrate_v5` (src/medusa/config/migration.py).  Only the
log *levels* emitted by the function are tracked (info/error), since the
spec talks about the corrupt replacement being logged. -/

inductive LogLevel where
  | info
  | error
deriving DecidableEq, Repr

/-- The all-zero 10-slot default used for corrupt metadata values. -/
def metadataZeroDefault : String := "0|0|0|0|0|0|0|0|0|0"

/-- `_migrate_metadata` from `ConfigMigrator._migrate_v5`.  Returns the new
metadata value together with the levels of the log calls it makes.
Mirrors the source line by line:
* 6 slots: `insert(4,'0')`, three `append('0')`, unconditional swap of
  list indices 2 and 3 (show fanart / show poster), then — only for the
  `'XBMC'` name with `use_banner` set — `cur[4], cur[3] = cur[3], '0'`;
* 10 slots: re-joined unchanged;
* anything else: replaced by the all-zero default, with an error log. -/
def migrate_metadata (metadata metadata_name : String) (use_banner : Bool) :
    String × List LogLevel :=
  let cur := pySplit '|' metadata
  if cur.length = 6 then
    let cur := cur.insertIdx 4 "0"
    let cur := cur ++ ["0"]
    let cur := cur ++ ["0"]
    let cur := cur ++ ["0"]
    -- swap show fanart, show poster: cur[3], cur[2] = cur[2], cur[3]
    let cur := (cur.set 3 (cur.getD 2 "")).set 2 (cur.getD 3 "")
    -- banner override: cur[4], cur[3] = cur[3], '0' (XBMC only)
    let cur :=
      if metadata_name = "XBMC" ∧ use_banner then
        (cur.set 4 (cur.getD 3 "")).set 3 "0"
      else cur
    (pyJoin '|' cur, [.info, .info])
  else if cur.length = 10 then
    (pyJoin '|' cur, [.info])
  else
    (metadataZeroDefault, [.error, .info])

/-! ## The config store

A ConfigObj file is a mapping section → key → value; values are strings,
ints (written back by `check_int`) or lists (written by `_migrate_v10`).
Python dicts preserve insertion order, so the store is an association list
and updates keep the original position while fresh keys append. -/

inductive CVal where
  | str (s : String)
  | int (n : Int)
  | list (l : List String)
deriving DecidableEq, Repr

abbrev Section := List (String × CVal)

abbrev Config := List (String × Section)

/-- `config[cfg_name][item_name]` as a total lookup. -/
def cfgLookup (c : Config) (sec key : String) : Option CVal :=
  match c.lookup sec with
  | some m => m.lookup key
  | none => none

/-- Update-or-append of one key inside a section (Python dict assignment). -/
def setKey (m : Section) (key : String) (v : CVal) : Section :=
  match m with
  | [] => [(key, v)]
  | (k, w) :: rest => if k = key then (key, v) :: rest else (k, w) :: setKey rest key v

/-- The write-back `config[cfg_name][item_name] = my_val` of the `check_*`
helpers: when the section is missing, the `except` arm first creates it
(`config[cfg_name] = {}`) and then stores the key. -/
def cfgSet (c : Config) (sec key : String) (v : CVal) : Config :=
  match c with
  | [] => [(sec, [(key, v)])]
  | (s, m) :: rest =>
    if s = sec then (sec, setKey m key v) :: rest else (s, m) :: cfgSet rest sec key v

/-- Python `str(value)` for config values.  The exact repr of a list value
is immaterial: it is only ever compared against `'true'`/`'false'` (never
equal) before `int()` raises a `TypeError` on it. -/
def pyStr : CVal → String
  | .str s => s
  | .int n => toString n
  | .list l => "[" ++ String.intercalate ", " l ++ "]"

/-- Python `int(value)` on a config value; `none` models the
`ValueError`/`TypeError`. -/
def pyIntOf : CVal → Option Int
  | .str s => pyParseInt s
  | .int n => some n
  | .list _ => none

/-! ### `setting.check_int` / `setting.check_str`

`medusa/config/setting.py` and `medusa/config/__init__.py` contain the same
helpers twice (`check_int` = `check_setting_int`, `check_str` =
`check_setting_str`); one embedding covers both.  The `silent` log flag and
the censor-log bookkeeping (which touch only the logger, never the config
mapping or the result) are not modelled.  `encrypt`/`decrypt` live in the
`helpers` module, outside `src/`; the spec treats them as opaque external
primitives, so they are parameters here (`decrypt` returning `none` models
both a raised exception and a `None` result). -/

/-- The `'true'`/`'false'` coercion at the top of `check_int`:
`if str(my_val).lower() == 'true': my_val = 1` (and `'false' ↦ 0`). -/
def pyCoerceTF (v : CVal) : CVal :=
  if pyLower (pyStr v) = "true" then .int 1
  else if pyLower (pyStr v) = "false" then .int 0
  else v

/-- `check_int(config, cfg_name, item_name, def_val)`: returns the parsed
value and the (possibly mutated) config. -/
def check_int (config : Config) (cfg_name item_name : String) (def_val : Int) :
    Int × Config :=
  match cfgLookup config cfg_name item_name with
  | some v0 =>
    let v1 : CVal := pyCoerceTF v0
    match pyIntOf v1 with
    | some n =>
      -- `if str(my_val) == str(None): raise` — can never fire after a
      -- successful `int()`, transcribed literally:
      if toString n = "None" then
        (def_val, cfgSet config cfg_name item_name (.int def_val))
      else (n, config)
    | none => (def_val, cfgSet config cfg_name item_name (.int def_val))
  | none => (def_val, cfgSet config cfg_name item_name (.int def_val))

/-- `check_bool`: `bool(check_int(...))`. -/
def check_bool (config : Config) (cfg_name item_name : String) (def_val : Int) :
    Bool × Config :=
  let (n, c) := check_int config cfg_name item_name def_val
  (n ≠ 0, c)

/-- `check_str(config, cfg_name, item_name, def_val, valid_values)`.
`app_encryption_version` is the global `app.ENCRYPTION_VERSION`; it is
used only when `'password'` occurs in the item name. -/
def check_str (decrypt : CVal → Nat → Option String) (encrypt : String → Nat → String)
    (app_encryption_version : Nat) (config : Config) (cfg_name item_name : String)
    (def_val : String) (valid_values : Option (List String)) : String × Config :=
  let encryption_version :=
    if pyContains item_name "password" then app_encryption_version else 0
  let hit : Option String :=
    match cfgLookup config cfg_name item_name with
    | some v0 =>
      match decrypt v0 encryption_version with
      | some s => if s = "None" then none else some s -- `str(my_val)==str(None)`
      | none => none
    | none => none
  match hit with
  | some s =>
    match valid_values with
    | some vs => if s ∈ vs then (s, config) else (def_val, config)
    | none => (s, config)
  | none =>
    -- default substituted and written back encrypted; the final
    -- `valid_values` test returns `def_val` either way on this path
    (def_val, cfgSet config cfg_name item_name (.str (encrypt def_val encryption_version)))

/-- `convert_csv_string_to_list(value, delimiter, trim)` from
`medusa/config/__init__.py`: non-strings pass through, the empty string
gives `[]`, otherwise a split (optionally stripping each item). -/
def convert_csv_string_to_list (value : CVal) (delimiter : Char) (trim : Bool) : CVal :=
  match value with
  | .str s =>
    if s = "" then .list []
    else .list (if trim then (pySplit delimiter s).map pyStrip else pySplit delimiter s)
  | v => v

/-! ### `_migrate_v4`: newznab cat_ids -/

/-- One provider descriptor of `_migrate_v4`: the 4-way unpacking raises a
`ValueError` (caught: record logged and skipped, `none`) unless the pipe
split has exactly 4 fields. -/
def migrate_v4_provider (cur_provider_data : String) : Option String :=
  match pySplit '|' cur_provider_data with
  | [name, url, key, enabled] =>
    let key := if name = "Sick Beard Index" then "0" else key
    let cat_ids :=
      if name = "NZBs.org" then "5030,5040,5060,5070,5090" else "5030,5040,5060"
    some (pyJoin '|' [name, url, key, cat_ids, enabled])
  | _ => none

/-- `ConfigMigrator._migrate_v4`: the new `NEWZNAB_DATA` value, `none` when
the old value is empty (the source then leaves the global untouched). -/
def migrate_v4 (old_newznab_data : String) : Option String :=
  if old_newznab_data = "" then none
  else
    some (String.intercalate "!!!"
      ((pySplitOn "!!!" old_newznab_data).filterMap migrate_v4_provider))

/-! ### `_migrate_v10`: csv config items and RSS torrent providers -/

/-- Modelled from the spec: the `TorrentRssProvider` constructor lives in
`medusa/providers/torrent/rss/rsstorrent.py`, which is not under `src/`.
Per spec §4.5 the parser turns a descriptor into a structured provider
record keyed by `name`; the record simply stores the constructor
arguments.  Python passes either the split string fields or the int/str
defaults — modelled uniformly as strings (`0` rendered as `"0"`). -/
structure TorrentRssProvider where
  name : String
  url : String
  cookies : String
  title_tag : String
  search_mode : String
  search_fallback : String
  enable_daily : String
  enable_backlog : String
  enable_manualsearch : String
  enabled : Bool
deriving DecidableEq, Repr

/-- `make_rss_torrent_provider(config)` (inner function of `_migrate_v10`).
The `try` only catches `ValueError`; the `else:` branch reads
`values[4]`, so fewer than 5 fields raise an uncaught `IndexError`
(`Except.error ()`), aborting the whole migration step.  Field counts 8,
9 and 10 unpack positionally; any other count of at least 5 uses the
`else:` fallback (`enabled = values[4]`, `name = values[0]`,
`url = values[1]`, defaults elsewhere). -/
def make_rss_torrent_provider (config : String) :
    Except Unit (Option TorrentRssProvider) :=
  if config = "" then .ok none
  else
    let values := pySplit '|' config
    let get := fun i => values.getD i ""
    if values.length = 9 then
      .ok (some { name := get 0, url := get 1, cookies := get 2, title_tag := get 3,
                  search_mode := get 5, search_fallback := get 6, enable_daily := get 7,
                  enable_backlog := get 8, enable_manualsearch := "0",
                  enabled := get 4 = "1" })
    else if values.length = 10 then
      .ok (some { name := get 0, url := get 1, cookies := get 2, title_tag := get 3,
                  search_mode := get 5, search_fallback := get 6, enable_daily := get 7,
                  enable_backlog := get 8, enable_manualsearch := get 9,
                  enabled := get 4 = "1" })
    else if values.length = 8 then
      .ok (some { name := get 0, url := get 1, cookies := get 2, title_tag := "title",
                  search_mode := get 4, search_fallback := get 5, enable_daily := get 6,
                  enable_backlog := get 7, enable_manualsearch := "0",
                  enabled := get 3 = "1" })
    else if 5 ≤ values.length then
      .ok (some { name := get 0, url := get 1, cookies := "", title_tag := "title",
                  search_mode := "eponly", search_fallback := "0", enable_daily := "0",
                  enable_backlog := "0", enable_manualsearch := "0",
                  enabled := get 4 = "1" })
    else .error ()

/-- The generator `(make_rss_torrent_provider(_) for _ in data.split('!!!'))`:
sequential, the first uncaught `IndexError` aborts. -/
def parseProviders : List String → Except Unit (List (Option TorrentRssProvider))
  | [] => .ok []
  | p :: ps => do
    let v ← make_rss_torrent_provider p
    let rest ← parseProviders ps
    .ok (v :: rest)

/-- `providers_list = [_ for _ in (make_rss_torrent_provider(_) for _ in
data.split('!!!')) if _]`. -/
def providersListOf (data : String) : Except Unit (List TorrentRssProvider) :=
  (parseProviders (pySplitOn "!!!" data)).map (fun l => l.filterMap id)

/-- The dedup loop of `get_rss_torrent_providers_list`: `seen_values` (a set
of names, kept as the list of names of `acc`) and `providers_set`
(append order). -/
def dedupByNameLoop :
    List TorrentRssProvider → List String → List TorrentRssProvider →
    List TorrentRssProvider
  | [], _, acc => acc
  | p :: ps, seen, acc =>
    if p.name ∈ seen then dedupByNameLoop ps seen acc
    else dedupByNameLoop ps (seen ++ [p.name]) (acc ++ [p])

/-- `get_rss_torrent_providers_list(data)` (inner function of
`_migrate_v10`).  The trailing `[_ for _ in providers_set if _]` keeps
every record (provider objects are truthy). -/
def get_rss_torrent_providers_list (data : String) :
    Except Unit (List TorrentRssProvider) :=
  (providersListOf data).map (fun pl => dedupByNameLoop pl [] [])

/-- `get_providers_from_data` (inner function of `_migrate_v10`). -/
def get_providers_from_data (providers_string : String) : List String :=
  ((pySplitOn "!!!" providers_string).filter (· ≠ "")).map
    (fun p => pyUpper ((pySplit '|' p).headD ""))

/-- `make_id(name)` (inner function of `_migrate_v10`):
`re.sub(r'[^\w\d_]', '_', str(name).strip().upper())`. -/
def make_id (name : String) : String :=
  if name = "" then ""
  else ⟨(pyUpper (pyStrip name)).data.map
    (fun c => if c.isAlphanum ∨ c = '_' then c else '_')⟩

/-- Modelled from the spec: `NewznabProvider` records (module
`medusa/providers/nzb/newznab.py`, not under `src/`); `_migrate_v10` uses
only their `name` and `default` attributes. -/
structure NewznabProviderRec where
  name : String
  default : Bool
deriving DecidableEq, Repr

/-- External collaborator of `_migrate_v10`:
`NewznabProvider.get_providers_list` (not under `src/`). -/
structure V10Env where
  newznab_get_providers_list : String → List NewznabProviderRec

/-- The app globals `_migrate_v10` assigns: the csv/list conversions in
source order, plus the provider migration results.  `torrentrss_list` /
`newznab_list` are `none` when the corresponding `KeyError` handler ran
(those globals are then never assigned). -/
structure V10Result where
  assigns : List (String × CVal)
  torrentrss_providers : List String
  torrentrss_list : Option (List TorrentRssProvider)
  newznab_list : Option (List NewznabProviderRec)
  newznab_providers : List String
deriving DecidableEq, Repr

/-- `config[sec][key]` as a direct (fallible) index: a missing section or
key raises `KeyError`. -/
def cfgIndex (c : Config) (sec key : String) : Except Unit CVal :=
  match cfgLookup c sec key with
  | some v => .ok v
  | none => .error ()

/-- `ConfigMigrator._migrate_v10`.  The csv conversions index the config
directly (an absent key raises an uncaught `KeyError`); only the
TorrentRss and the Newznab blocks are wrapped in `try/except KeyError`.
Inside the TorrentRss block `get_rss_torrent_providers_list` can still
raise an uncaught `IndexError`, which propagates. -/
def migrate_v10 (env : V10Env) (cfg : Config) : Except Unit V10Result := do
  let cget := fun sec key => cfgIndex cfg sec key
  -- General
  let git_reset_branches ← cget "General" "git_reset_branches"
  let allowed_extensions ← cget "General" "allowed_extensions"
  let provider_order ← cget "General" "provider_order"
  let root_dirs ← cget "General" "root_dirs"
  let sync_files ← cget "General" "sync_files"
  let ignore_words ← cget "General" "ignore_words"
  let preferred_words ← cget "General" "preferred_words"
  let undesired_words ← cget "General" "undesired_words"
  let trackers_list ← cget "General" "trackers_list"
  let require_words ← cget "General" "require_words"
  let ignored_subs_list ← cget "General" "ignored_subs_list"
  let broken_providers ← cget "General" "broken_providers"
  let extra_scripts ← cget "General" "extra_scripts"
  -- Metadata
  let metadata_kodi ← cget "General" "metadata_kodi"
  let metadata_kodi_12plus ← cget "General" "metadata_kodi_12plus"
  let metadata_mediabrowser ← cget "General" "metadata_mediabrowser"
  let metadata_ps3 ← cget "General" "metadata_ps3"
  let metadata_wdtv ← cget "General" "metadata_wdtv"
  let metadata_tivo ← cget "General" "metadata_tivo"
  let metadata_mede8er ← cget "General" "metadata_mede8er"
  -- Subtitles
  let subtitles_languages ← cget "Subtitles" "subtitles_languages"
  let subtitles_services_list ← cget "Subtitles" "SUBTITLES_SERVICES_LIST"
  let subtitles_services_enabled ← cget "Subtitles" "SUBTITLES_SERVICES_ENABLED"
  -- Notifications
  let kodi_host ← cget "KODI" "kodi_host"
  let plex_server_host ← cget "Plex" "plex_server_host"
  let plex_client_host ← cget "Plex" "plex_client_host"
  let prowl_api ← cget "Prowl" "prowl_api"
  let pushover_device ← cget "Pushover" "pushover_device"
  let nma_api ← cget "NMA" "nma_api"
  let email_list ← cget "Email" "email_list"
  let conv := fun v => convert_csv_string_to_list v ',' false
  let assigns : List (String × CVal) := [
    ("GIT_RESET_BRANCHES", conv git_reset_branches),
    ("ALLOWED_EXTENSIONS", conv allowed_extensions),
    ("PROVIDER_ORDER", convert_csv_string_to_list provider_order ' ' false),
    ("ROOT_DIRS", convert_csv_string_to_list root_dirs '|' false),
    ("SYNC_FILES", conv sync_files),
    ("IGNORE_WORDS", conv ignore_words),
    ("PREFERRED_WORDS", conv preferred_words),
    ("UNDESIRED_WORDS", conv undesired_words),
    ("TRACKERS_LIST", conv trackers_list),
    ("REQUIRE_WORDS", conv require_words),
    ("IGNORED_SUBS_LIST", conv ignored_subs_list),
    ("BROKEN_PROVIDERS", conv broken_providers),
    ("EXTRA_SCRIPTS", conv extra_scripts),
    ("METADATA_KODI", convert_csv_string_to_list metadata_kodi '|' false),
    ("METADATA_KODI_12PLUS", convert_csv_string_to_list metadata_kodi_12plus '|' false),
    ("METADATA_MEDIABROWSER", convert_csv_string_to_list metadata_mediabrowser '|' false),
    ("METADATA_PS3", convert_csv_string_to_list metadata_ps3 '|' false),
    ("METADATA_WDTV", convert_csv_string_to_list metadata_wdtv '|' false),
    ("METADATA_TIVO", convert_csv_string_to_list metadata_tivo '|' false),
    ("METADATA_MEDE8ER", convert_csv_string_to_list metadata_mede8er '|' false),
    ("SUBTITLES_LANGUAGES", conv subtitles_languages),
    ("SUBTITLES_SERVICES_LIST", conv subtitles_services_list),
    ("SUBTITLES_SERVICES_ENABLED", convert_csv_string_to_list subtitles_services_enabled '|' false),
    ("KODI_HOST", conv kodi_host),
    ("PLEX_SERVER_HOST", conv plex_server_host),
    ("PLEX_CLIENT_HOST", conv plex_client_host),
    ("PROWL_API", conv prowl_api),
    ("PUSHOVER_DEVICE", conv pushover_device),
    ("NMA_API", conv nma_api),
    ("EMAIL_LIST", conv email_list)]
  -- TorrentRss block: `except KeyError: TORRENTRSS_PROVIDERS = []`
  let (trp, trl) ← (do
    match cfgIndex cfg "TorrentRss" "torrentrss_data" with
    | .error _ => .ok (([] : List String), (none : Option (List TorrentRssProvider)))
    | .ok v => do
      let tl ← get_rss_torrent_providers_list (pyStr v)
      .ok (get_providers_from_data (pyStr v), some tl) :
    Except Unit (List String × Option (List TorrentRssProvider)))
  -- Newznab block: `except KeyError: NEWZNAB_PROVIDERS = []`
  let (npl, nps) :=
    match cfgIndex cfg "Newznab" "newznab_data" with
    | .error _ => ((none : Option (List NewznabProviderRec)), ([] : List String))
    | .ok v =>
      let nl := env.newznab_get_providers_list (pyStr v)
      (some nl, (nl.filter (fun p => ¬ p.default)).map (fun p => make_id p.name))
  .ok { assigns := assigns, torrentrss_providers := trp, torrentrss_list := trl,
        newznab_list := npl, newznab_providers := nps }

/-! ## `ConfigMigrator.migrate_config`: the config migration chain

The driver loop of `migrate_config` over an abstract store `σ` (the config
file plus the app globals the steps assign).  The per-step bodies are the
`getattr(self, '_migrate_v<n>')()` dispatch, passed in as
`step : Nat → σ → Option σ` (`none` = the step raised, which propagates out
of the loop); `bk v` is `helpers.backup_versioned_file(app.CONFIG_FILE, v)`
(external).  The store component of the result is the *persisted* config
state: `save_config` runs only after a fully successful step, so an
aborted run leaves the last saved store. -/

inductive CfgEvent where
  | backup (v : Nat)
  | backupFail (v : Nat)
  | transform (v : Nat)
  | save (v : Nat)
deriving DecidableEq, Repr

structure CfgRun (σ : Type) where
  events : List CfgEvent
  store : σ
  version : Nat
  aborted : Bool
deriving DecidableEq, Repr

/-- The `while self.config_version < self.expected_config_version` loop,
with the remaining iteration count (`expected - current`, the structural
fuel) made explicit: back up at the current version; on backup failure
`logger.log_error_and_exit` aborts the run; otherwise run
`_migrate_v<next>` (`none` = the step raised, aborting the run), set
`config_version = next` and save. -/
def migrateSteps {σ : Type} (bk : Nat → Bool) (step : Nat → σ → Option σ) :
    Nat → Nat → σ → CfgRun σ
  | 0, cv, st => ⟨[], st, cv, false⟩
  | fuel + 1, cv, st =>
    if bk cv then
      match step (cv + 1) st with
      | some st2 =>
        let r := migrateSteps bk step fuel (cv + 1) st2
        ⟨.backup cv :: .transform (cv + 1) :: .save (cv + 1) :: r.events,
          r.store, r.version, r.aborted⟩
      | none => ⟨[.backup cv], st, cv, true⟩
    else ⟨[.backupFail cv], st, cv, true⟩

/-- `ConfigMigrator.migrate_config`: first the forward-compatibility guard
(`config_version > expected_config_version` exits), then the loop, which
runs `expected - current` iterations unless aborted. -/
def migrate_config {σ : Type} (bk : Nat → Bool) (step : Nat → σ → Option σ)
    (cv ev : Nat) (st : σ) : CfgRun σ :=
  if ev < cv then ⟨[], st, cv, true⟩
  else migrateSteps bk step (ev - cv) cv st

/-! ## The main DB store (`medusa/databases/main_db.py`)

The relational store is modelled with one typed row list per table the
sanity checker and the upgrade steps touch, plus a schema map (table →
column names) for the `hasTable`/`hasColumn`/DDL operations and an event
log recording backups, mutating statements and error logs.  SQL numeric
columns are `Int`, `NULL`-able ones `Option`; text columns are `String`
(SQLite storage-class duality, e.g. `lang = 0 or lang = '0'`, collapses to
the string form).

Failure injection: every `connection.select`/`connection.action` is one
engine call (`tick`) that raises when the schedule `failAt` says so — this
models the exceptions the spec's error-handling contracts quantify over.
Version and schema reads are modelled as pure state reads. -/

structure ShowRow where
  show_id : Nat
  indexer_id : Int
  status : String
  lang : String
  anime : Int
deriving DecidableEq, Repr

structure EpRow where
  episode_id : Nat
  showid : Int
  season : Int
  episode : Int
  airdate : Int
  status : Option Int
  location : String
  subtitles : String
  subtitles_searchcount : Int
  subtitles_lastsearch : String
deriving DecidableEq, Repr

structure MappingRow where
  mindexer_id : String
deriving DecidableEq, Repr

structure HistoryRow where
  resource : String
  action : Int
  proper_tags : Option String
deriving DecidableEq, Repr

/-- `backupDatabase` is called either with `checkDBVersion()` (an int) or
with `connection.version` (a pair). -/
inductive BackupArg where
  | major (v : Nat)
  | pair (v : Nat × Nat)
deriving DecidableEq, Repr

inductive DbEvent where
  | backup (arg : BackupArg)
  | sql (stmt : String)
  | logError
deriving DecidableEq, Repr

structure DbState where
  version : Nat × Nat
  tables : List (String × List String)
  indexes : List String
  tv_shows : List ShowRow
  tv_episodes : List EpRow
  indexer_mapping : List MappingRow
  history : List HistoryRow
  events : List DbEvent
deriving DecidableEq, Repr

/-- Modelled from the spec: episode status and quality codes live in
`medusa/common.py`, which is not under `src/`; the claims depend only on
these being fixed, distinct tags. -/
def UNKNOWN : Int := -1

def UNAIRED : Int := 1

def WANTED : Int := 3

def SKIPPED : Int := 5

def ARCHIVED : Int := 6

def QUALITY_UNKNOWN : Int := 32768

/-- `datetime.date.max.toordinal()`. -/
def dateMaxOrdinal : Int := 3652059

def MIN_DB_VERSION : Nat := 40

def MAX_DB_VERSION : Nat := 44

/-- External collaborators of the DB layer: the failure schedule of the
engine, the (unspecified) row order an un-`ORDER BY`ed SELECT returns,
today's date, the indexer `STATUS_MAP`, filesystem existence, the quality
helpers from `common.py`, the backup primitive, and the name parser's
proper tags. -/
structure DbEnv where
  failAt : Nat → Bool
  shuffleShows : List ShowRow → List ShowRow
  today : Int
  statusMap : List (String × String)
  fileExists : String → Bool
  nameQuality : String → Int → Int
  compositeStatus : Int → Int → Int
  backupOk : BackupArg → Bool
  properTags : String → List String

/-- How a run can halt: an escaping Python exception (`exc`) or
`sys.exit` (`exit`), each carrying the op counter / store at that point. -/
inductive Halt where
  | exc (n : Nat) (s : DbState)
  | exit (code : Nat) (s : DbState)
deriving DecidableEq, Repr

def Halt.state : Halt → DbState
  | .exc _ s => s
  | .exit _ s => s

/-- The DB computation monad: environment, engine-op counter, store. -/
def DbM (α : Type) : Type :=
  DbEnv → Nat → DbState → Except Halt (α × Nat × DbState)

def DbM.pure (a : α) : DbM α := fun _ n s => .ok (a, n, s)

def DbM.bind (x : DbM α) (f : α → DbM β) : DbM β := fun env n s =>
  match x env n s with
  | .error h => .error h
  | .ok (a, n2, s2) => f a env n2 s2

instance : Monad DbM where
  pure := DbM.pure
  bind := DbM.bind

/-- One engine call; raises per the failure schedule. -/
def tick : DbM Unit := fun env n s =>
  if env.failAt n then .error (.exc (n + 1) s) else .ok ((), n + 1, s)

def getS : DbM DbState := fun _ n s => .ok (s, n, s)

def modifyS (f : DbState → DbState) : DbM Unit := fun _ n s => .ok ((), n, f s)

def readEnv : DbM DbEnv := fun env n s => .ok (env, n, s)

/-- `connection.select(...)`: one fallible engine call, then a pure read of
the store. -/
def dbSelect (f : DbEnv → DbState → α) : DbM α := do
  tick
  let env ← readEnv
  let s ← getS
  pure (f env s)

/-- `connection.action(stmt)`: one fallible engine call, the row/schema
effect, and the statement recorded in the event log. -/
def dbAction (stmt : String) (f : DbState → DbState) : DbM Unit := do
  tick
  modifyS (fun s => let s2 := f s; { s2 with events := s2.events ++ [.sql stmt] })

/-- A Python `for` loop over a materialized result list. -/
def mFor : List α → (α → DbM Unit) → DbM Unit
  | [], _ => DbM.pure ()
  | a :: as, f => DbM.bind (f a) (fun _ => mFor as f)

def logErrorM : DbM Unit := modifyS (fun s => { s with events := s.events ++ [.logError] })

def sysExit (code : Nat) : DbM Unit := fun _ _ s => .error (.exit code s)

/-! ### Grouping helpers (GROUP BY ... HAVING COUNT > 1)

The engine's group order is unspecified; first-occurrence order is used
(the final state is order-independent, since different keys delete
disjoint row sets). -/

/-- The keys of a list in first-occurrence order, each once. -/
def firstOccs [DecidableEq κ] : List κ → List κ
  | [] => []
  | k :: ks => k :: (firstOccs ks).filter (fun x => ¬ x = k)

/-- `GROUP BY key HAVING COUNT > 1`: every key with its multiplicity. -/
def groupCounts [DecidableEq κ] (ks : List κ) : List (κ × Nat) :=
  (firstOccs ks).map (fun k => (k, (ks.filter (fun x => x = k)).length))

/-- Descending insertion sort (`ORDER BY episode_id DESC`). -/
def insertDesc (x : Nat) : List Nat → List Nat
  | [] => [x]
  | y :: ys => if y ≤ x then x :: y :: ys else y :: insertDesc x ys

def sortDesc : List Nat → List Nat
  | [] => []
  | x :: xs => insertDesc x (sortDesc xs)

/-- SQLite `LIKE '%pat%'` (ASCII case-insensitive). -/
def likeContains (hay pat : String) : Bool :=
  pyContains (pyUpper hay) (pyUpper pat)

/-! ### `MainSanityCheck` routines -/

/-- `fix_missing_table_indexes`: six `PRAGMA index_info` probes, each
followed by a `CREATE INDEX` when absent. -/
def fix_missing_table_indexes : DbM Unit := do
  let fixIdx := fun (name stmt : String) => do
    let present ← dbSelect (fun _ s => s.indexes.contains name)
    if present then DbM.pure ()
    else dbAction stmt (fun s => { s with indexes := s.indexes ++ [name] })
  fixIdx "idx_indexer_id" "CREATE UNIQUE INDEX idx_indexer_id ON tv_shows(indexer_id);"
  fixIdx "idx_tv_episodes_showid_airdate"
    "CREATE INDEX idx_tv_episodes_showid_airdate ON tv_episodes(showid, airdate);"
  fixIdx "idx_showid" "CREATE INDEX idx_showid ON tv_episodes (showid);"
  fixIdx "idx_status" "CREATE INDEX idx_status ON tv_episodes (status, season, episode, airdate)"
  fixIdx "idx_sta_epi_air" "CREATE INDEX idx_sta_epi_air ON tv_episodes (status, episode, airdate)"
  fixIdx "idx_sta_epi_sta_air" "CREATE INDEX idx_sta_epi_sta_air ON tv_episodes (season, episode, status, airdate)"

/-- `fix_duplicate_shows`: group `tv_shows` by `indexer_id`; for each
duplicated value, select `COUNT-1` rows — **without any `ORDER BY`**, so
the engine's row order `shuffleShows` decides which rows the `LIMIT`
keeps — and delete them by `show_id`. -/
def fix_duplicate_shows : DbM Unit := do
  let groups ← dbSelect (fun _ s => groupCounts (s.tv_shows.map (fun r => r.indexer_id)))
  mFor (groups.filter (fun g => 1 < g.2)) (fun g => do
    let victims ← dbSelect (fun env s =>
      ((env.shuffleShows (s.tv_shows.filter (fun r => r.indexer_id = g.1))).map
        (fun r => r.show_id)).take (g.2 - 1))
    mFor victims (fun sid =>
      dbAction "DELETE FROM tv_shows WHERE show_id = ?"
        (fun s => { s with tv_shows := s.tv_shows.filter (fun r => ¬ r.show_id = sid) })))

/-- The compound uniqueness key of an episode. -/
def epKey (r : EpRow) : Int × Int × Int := (r.showid, r.season, r.episode)

/-- `fix_duplicate_episodes`: group by `(showid, season, episode)`; for
each duplicated key select `COUNT-1` rows `ORDER BY episode_id DESC` and
delete them (so the smallest `episode_id` survives). -/
def fix_duplicate_episodes : DbM Unit := do
  let groups ← dbSelect (fun _ s => groupCounts (s.tv_episodes.map epKey))
  mFor (groups.filter (fun g => 1 < g.2)) (fun g => do
    let victims ← dbSelect (fun _ s =>
      (sortDesc ((s.tv_episodes.filter (fun r => epKey r = g.1)).map
        (fun r => r.episode_id))).take (g.2 - 1))
    mFor victims (fun eid =>
      dbAction "DELETE FROM tv_episodes WHERE episode_id = ?"
        (fun s => { s with tv_episodes := s.tv_episodes.filter (fun r => ¬ r.episode_id = eid) })))

/-- `fix_orphan_episodes`: LEFT JOIN on `showid = tv_shows.indexer_id`,
delete the episodes with no parent show. -/
def fix_orphan_episodes : DbM Unit := do
  let orphans ← dbSelect (fun _ s =>
    (s.tv_episodes.filter (fun e => ¬ s.tv_shows.any (fun sh => sh.indexer_id = e.showid))).map
      (fun e => e.episode_id))
  mFor orphans (fun eid =>
    dbAction "DELETE FROM tv_episodes WHERE episode_id = ?"
      (fun s => { s with tv_episodes := s.tv_episodes.filter (fun r => ¬ r.episode_id = eid) }))

/-- `fix_unaired_episodes`: episodes airing after today (or with the
sentinel airdate 1) still marked SKIPPED/WANTED are set to UNAIRED. -/
def fix_unaired_episodes : DbM Unit := do
  let cands ← dbSelect (fun env s =>
    (s.tv_episodes.filter (fun e =>
      (env.today < e.airdate ∨ e.airdate = 1) ∧
      (e.status = some SKIPPED ∨ e.status = some WANTED) ∧ 0 < e.season)).map
      (fun e => e.episode_id))
  mFor cands (fun eid =>
    dbAction "UPDATE tv_episodes SET status = ? WHERE episode_id = ?"
      (fun s => { s with tv_episodes := (s.tv_episodes.map
        (fun e => if e.episode_id = eid then { e with status := some UNAIRED } else e)) }))

/-- `fix_indexer_show_statues`: one UPDATE per `STATUS_MAP` entry. -/
def fix_indexer_show_statues : DbM Unit := do
  let env ← readEnv
  mFor env.statusMap (fun p =>
    dbAction "UPDATE tv_shows SET status = ? WHERE LOWER(status) = ?"
      (fun s => { s with tv_shows := (s.tv_shows.map
        (fun sh => if pyLower sh.status = p.1 then { sh with status := p.2 } else sh)) }))

/-- `fix_episode_statuses`: `status IS NULL` becomes UNKNOWN. -/
def fix_episode_statuses : DbM Unit := do
  let cands ← dbSelect (fun _ s =>
    (s.tv_episodes.filter (fun e => e.status = none)).map (fun e => e.episode_id))
  mFor cands (fun eid =>
    dbAction "UPDATE tv_episodes SET status = ? WHERE episode_id = ?"
      (fun s => { s with tv_episodes := (s.tv_episodes.map
        (fun e => if e.episode_id = eid then { e with status := some UNKNOWN } else e)) }))

/-- `fix_invalid_airdates`: out-of-domain airdates are reset to the
sentinel 1 (the source writes the string `'1'` into the numeric column). -/
def fix_invalid_airdates : DbM Unit := do
  let cands ← dbSelect (fun _ s =>
    (s.tv_episodes.filter (fun e => dateMaxOrdinal ≤ e.airdate ∨ e.airdate < 1)).map
      (fun e => e.episode_id))
  mFor cands (fun eid =>
    dbAction "UPDATE tv_episodes SET airdate = ? WHERE episode_id = ?"
      (fun s => { s with tv_episodes := (s.tv_episodes.map
        (fun e => if e.episode_id = eid then { e with airdate := 1 } else e)) }))

/-- `fix_show_nfo_lang`: `lang = 0 or lang = '0'` becomes `''` (one
unconditional UPDATE; the two storage-class forms collapse to `"0"`). -/
def fix_show_nfo_lang : DbM Unit :=
  dbAction "UPDATE tv_shows SET lang = ? WHERE lang = 0 or lang = ?"
    (fun s => { s with tv_shows := (s.tv_shows.map
      (fun sh => if sh.lang = "0" then { sh with lang := "" } else sh)) })

/-- `convert_archived_to_compound`: for every ARCHIVED episode joined with
its show, recompute the composite status, re-checking file existence on
every run. -/
def convert_archived_to_compound : DbM Unit := do
  let rows ← dbSelect (fun _ s =>
    (s.tv_episodes.filter (fun e => e.status = some ARCHIVED)).flatMap
      (fun e => (s.tv_shows.filter (fun sh => sh.indexer_id = e.showid)).map (fun sh => (e, sh))))
  mFor rows (fun r => do
    let env ← readEnv
    let existing := ¬ r.1.location = "" ∧ env.fileExists r.1.location
    let fixed_status :=
      if existing then env.compositeStatus ARCHIVED (env.nameQuality r.1.location r.2.anime)
      else env.compositeStatus ARCHIVED QUALITY_UNKNOWN
    dbAction "UPDATE tv_episodes SET status = ? WHERE episode_id = ?"
      (fun s => { s with tv_episodes := (s.tv_episodes.map
        (fun e => if e.episode_id = r.1.episode_id then { e with status := some fixed_status } else e)) }))

/-- `fix_subtitle_reference`: deleted episodes (`location = ''`) with
subtitle data get their subtitle fields erased. -/
def fix_subtitle_reference : DbM Unit := do
  let cands ← dbSelect (fun _ s =>
    (s.tv_episodes.filter (fun e => e.location = "" ∧ ¬ e.subtitles = "")).map
      (fun e => e.episode_id))
  mFor cands (fun eid =>
    dbAction "UPDATE tv_episodes SET subtitles = ?, subtitles_searchcount = 0, subtitles_lastsearch = ? WHERE episode_id = ?"
      (fun s => { s with tv_episodes := (s.tv_episodes.map
        (fun e => if e.episode_id = eid then
          { e with subtitles := "", subtitles_searchcount := 0, subtitles_lastsearch := "" }
          else e)) }))

/-- `clean_null_indexer_mappings`: delete mappings with an empty
`mindexer_id` (one DELETE, only issued when the probe found rows). -/
def clean_null_indexer_mappings : DbM Unit := do
  let found ← dbSelect (fun _ s => s.indexer_mapping.filter (fun m => m.mindexer_id = ""))
  if found.isEmpty then DbM.pure ()
  else
    dbAction "DELETE FROM indexer_mapping WHERE mindexer_id = ?"
      (fun s => { s with indexer_mapping := s.indexer_mapping.filter (fun m => ¬ m.mindexer_id = "") })

/-- `MainSanityCheck.check`: the twelve routines, called in source order,
with **no** per-routine exception handling (`fix_subtitles_codes` is
commented out in the source). -/
def check : DbM Unit := do
  fix_missing_table_indexes
  fix_duplicate_shows
  fix_duplicate_episodes
  fix_orphan_episodes
  fix_unaired_episodes
  fix_indexer_show_statues
  fix_episode_statuses
  fix_invalid_airdates
  fix_show_nfo_lang
  convert_archived_to_compound
  fix_subtitle_reference
  clean_null_indexer_mappings

/-- `MainSanityCheck.update_old_propers` (called by the AddProperTags /
AddManualSearched migrations, not by `check`). -/
def update_old_propers : DbM Unit := do
  let propers ← dbSelect (fun _ s =>
    (s.history.filter (fun h =>
      (h.proper_tags = none ∨ h.proper_tags = some "") ∧
      (pyEndsWith (toString h.action) "2" ∨ pyEndsWith (toString h.action) "9") ∧
      (likeContains h.resource "REPACK" ∨ likeContains h.resource "PROPER" ∨
        likeContains h.resource "REAL"))).map (fun h => h.resource))
  mFor propers (fun resource => do
    let env ← readEnv
    let tags := env.properTags resource
    if tags.isEmpty then DbM.pure ()
    else
      dbAction "UPDATE history SET proper_tags = ? WHERE resource = ?"
        (fun s => { s with history := (s.history.map
          (fun h => if h.resource = resource then
            { h with proper_tags := some (String.intercalate "|" tags) } else h)) }))

/-! ### The DB schema-upgrade chain

`backupDatabase` and the step classes are from `main_db.py`.  The generic
`SchemaUpgrade` helpers (`hasTable`, `hasColumn`, `addColumn`,
`checkDBVersion`, `incDBVersion`, `connection.version`) and the driver
live in `medusa/db.py`, which is not under `src/`; they are modelled from
the spec (§4.1 version ledger, §4.3 chain, schema-widening steps) as the
obvious schema-map / version-ledger operations. -/

/-- `backupDatabase(version)` (src): calls the external
`helpers.backup_versioned_file`; on failure it logs an error and
`sys.exit(1)`s — the transform of the step never runs. -/
def backupDatabase (arg : BackupArg) : DbM Unit := fun env n s =>
  if env.backupOk arg then .ok ((), n, { s with events := s.events ++ [.backup arg] })
  else .error (.exit 1 { s with events := s.events ++ [.logError] })

/-- Modelled from the spec: `SchemaUpgrade.checkDBVersion` — the major
ledger value, as a pure state read. -/
def checkDBVersion : DbM Nat := DbM.bind getS (fun s => DbM.pure s.version.1)

/-- Modelled from the spec: `connection.version` — the `(major, minor)`
ledger pair. -/
def connVersion : DbM (Nat × Nat) := DbM.bind getS (fun s => DbM.pure s.version)

def hasTableP (s : DbState) (t : String) : Bool := (s.tables.lookup t).isSome

def hasColumnP (s : DbState) (t c : String) : Bool := ((s.tables.lookup t).getD []).contains c

/-- Modelled from the spec: `SchemaUpgrade.hasTable`. -/
def hasTable (t : String) : DbM Bool := DbM.bind getS (fun s => DbM.pure (hasTableP s t))

/-- Modelled from the spec: `SchemaUpgrade.hasColumn`. -/
def hasColumn (t c : String) : DbM Bool := DbM.bind getS (fun s => DbM.pure (hasColumnP s t c))

/-- Modelled from the spec (§4.3, schema-widening): `SchemaUpgrade.addColumn
(table, column, type, default)` issues one ALTER TABLE and registers the
column. -/
def addColumn (table column ctype cdefault : String) : DbM Unit :=
  dbAction ("ALTER TABLE " ++ table ++ " ADD COLUMN " ++ column ++ " " ++ ctype ++ " " ++ cdefault)
    (fun s => { s with tables := (s.tables.map
      (fun t => if t.1 = table then (t.1, t.2 ++ [column]) else t)) })

/-- The recurring guard
`if not self.hasColumn(t, c): self.addColumn(t, c, type, default)`. -/
def addColumnIfMissing (t c ty d : String) : DbM Unit := do
  let h ← hasColumn t c
  if ¬ h then addColumn t c ty d else DbM.pure ()

/-- Modelled from the spec: `SchemaUpgrade.incDBVersion` bumps the major
version (pre-minor-versioning steps). -/
def incDBVersion : DbM Unit := DbM.bind connVersion (fun v =>
  dbAction "UPDATE db_version SET db_version = ?" (fun s => { s with version := (v.1 + 1, v.2) }))

/-- `AddMinorVersion.inc_major_version` (src): major + 1, minor reset to 0. -/
def inc_major_version : DbM (Nat × Nat) := DbM.bind connVersion (fun v =>
  DbM.bind (dbAction "UPDATE db_version SET db_version = ?, db_minor_version = ?"
    (fun s => { s with version := (v.1 + 1, 0) })) (fun _ => DbM.pure (v.1 + 1, 0)))

/-- `AddMinorVersion.inc_minor_version` (src): minor + 1. -/
def inc_minor_version : DbM (Nat × Nat) := DbM.bind connVersion (fun v =>
  DbM.bind (dbAction "UPDATE db_version SET db_version = ?, db_minor_version = ?"
    (fun s => { s with version := (v.1, v.2 + 1) })) (fun _ => DbM.pure (v.1, v.2 + 1)))

/-- Lexicographic `(major, minor) ≥ (major', minor')` — Python tuple
comparison used by the `test` methods. -/
def verGE (v w : Nat × Nat) : Bool := w.1 < v.1 ∨ (v.1 = w.1 ∧ w.2 ≤ v.2)

def dropTableEff (t : String) (s : DbState) : DbState :=
  { s with tables := s.tables.filter (fun p => ¬ p.1 = t) }

def renameTableEff (told tnew : String) (s : DbState) : DbState :=
  { s with tables := (s.tables.map (fun p => if p.1 = told then (tnew, p.2) else p)) }

def createTableEff (t : String) (cols : List String) (s : DbState) : DbState :=
  { s with tables := s.tables ++ [(t, cols)] }

/-- The CREATE TABLE statements of `InitialSchema.execute` (table name and
column names; the full SQL text with types is in the source). -/
def freshSchemaTables : List (String × List String) := [
  ("db_version", ["db_version"]),
  ("history", ["action", "date", "showid", "season", "episode", "quality",
    "resource", "provider", "version"]),
  ("imdb_info", ["indexer_id", "imdb_id", "title", "year", "akas", "runtimes",
    "genres", "countries", "country_codes", "certificates", "rating", "votes",
    "last_update", "plot"]),
  ("info", ["last_backlog", "last_indexer", "last_proper_search"]),
  ("scene_numbering", ["indexer", "indexer_id", "season", "episode",
    "scene_season", "scene_episode", "absolute_number", "scene_absolute_number"]),
  ("tv_shows", ["show_id", "indexer_id", "indexer", "show_name", "location",
    "network", "genre", "classification", "runtime", "quality", "airs", "status",
    "flatten_folders", "paused", "startyear", "air_by_date", "lang", "subtitles",
    "notify_list", "imdb_id", "last_update_indexer", "dvdorder",
    "archive_firstmatch", "rls_require_words", "rls_ignore_words", "sports",
    "anime", "scene", "default_ep_status"]),
  ("tv_episodes", ["episode_id", "showid", "indexerid", "indexer", "name",
    "season", "episode", "description", "airdate", "hasnfo", "hastbn", "status",
    "location", "file_size", "release_name", "subtitles",
    "subtitles_searchcount", "subtitles_lastsearch", "is_proper", "scene_season",
    "scene_episode", "absolute_number", "scene_absolute_number", "version",
    "release_group"]),
  ("blacklist", ["show_id", "range", "keyword"]),
  ("whitelist", ["show_id", "range", "keyword"]),
  ("xem_refresh", ["indexer", "indexer_id", "last_refreshed"]),
  ("indexer_mapping", ["indexer_id", "indexer", "mindexer_id", "mindexer"])]

def freshSchemaIndexes : List String := [
  "idx_indexer_id", "idx_showid", "idx_sta_epi_air", "idx_sta_epi_sta_air",
  "idx_status", "idx_tv_episodes_showid_airdate"]

/-- `InitialSchema.execute`: a brand-new store gets the full schema stamped
at version 42; otherwise the version guards run — the too-old branch logs
and `sys.exit(1)`s, while the too-new branch **only logs** (there is no
`sys.exit` in the source there) and execution continues. -/
def initialSchema_execute : DbM Unit := do
  let hs ← hasTable "tv_shows"
  let hv ← hasTable "db_version"
  if ¬ hs ∧ ¬ hv then
    mFor freshSchemaTables (fun t =>
      dbAction ("CREATE TABLE " ++ t.1) (createTableEff t.1 t.2))
    mFor freshSchemaIndexes (fun i =>
      dbAction ("CREATE INDEX " ++ i) (fun s => { s with indexes := s.indexes ++ [i] }))
    dbAction "INSERT INTO db_version(db_version) VALUES (42)"
      (fun s => { s with version := (42, 0) })
  else
    let cur ← checkDBVersion
    if cur < MIN_DB_VERSION then do
      logErrorM
      sysExit 1
    else DbM.pure ()
    if MAX_DB_VERSION < cur then logErrorM
    else DbM.pure ()

def addVersionToTvEpisodes_execute : DbM Unit := do
  let v ← checkDBVersion
  backupDatabase (.major v)
  addColumn "tv_episodes" "version" "NUMERIC" "-1"
  addColumn "tv_episodes" "release_group" "TEXT" ""
  addColumn "history" "version" "NUMERIC" "-1"
  incDBVersion

def addDefaultEpStatusToTvShows_execute : DbM Unit := do
  let v ← checkDBVersion
  backupDatabase (.major v)
  addColumn "tv_shows" "default_ep_status" "NUMERIC" "-1"
  incDBVersion

def alterTVShowsFieldTypes_execute : DbM Unit := do
  let v ← checkDBVersion
  backupDatabase (.major v)
  dbAction "DROP TABLE IF EXISTS tmp_tv_shows" (dropTableEff "tmp_tv_shows")
  dbAction "ALTER TABLE tv_shows RENAME TO tmp_tv_shows" (renameTableEff "tv_shows" "tmp_tv_shows")
  dbAction "CREATE TABLE tv_shows (...)" (createTableEff "tv_shows"
    ((freshSchemaTables.lookup "tv_shows").getD []))
  -- full copy: the logical `tv_shows` row contents are unchanged
  dbAction "INSERT INTO tv_shows SELECT * FROM tmp_tv_shows" id
  dbAction "DROP TABLE tmp_tv_shows" (dropTableEff "tmp_tv_shows")
  incDBVersion

def addMinorVersion_execute : DbM Unit := do
  let v ← checkDBVersion
  backupDatabase (.major v)
  addColumn "db_version" "db_minor_version" "NUMERIC" ""
  let _ ← inc_minor_version
  DbM.pure ()

def testIncreaseMajorVersion_execute : DbM Unit := do
  let v ← connVersion
  backupDatabase (.pair v)
  let _ ← inc_major_version
  let _ ← inc_minor_version
  DbM.pure ()

def addProperTags_execute : DbM Unit := do
  let v ← connVersion
  backupDatabase (.pair v)
  addColumnIfMissing "history" "proper_tags" "TEXT" ""
  update_old_propers
  let _ ← inc_minor_version
  DbM.pure ()

def addManualSearched_execute : DbM Unit := do
  let v ← connVersion
  backupDatabase (.pair v)
  addColumnIfMissing "history" "manually_searched" "NUMERIC" "0"
  addColumnIfMissing "tv_episodes" "manually_searched" "NUMERIC" "0"
  update_old_propers
  let _ ← inc_minor_version
  DbM.pure ()

def addInfoHash_execute : DbM Unit := do
  let v ← connVersion
  backupDatabase (.pair v)
  addColumnIfMissing "history" "info_hash" "TEXT" ""
  let _ ← inc_minor_version
  DbM.pure ()

def addPlot_execute : DbM Unit := do
  let v ← connVersion
  backupDatabase (.pair v)
  addColumnIfMissing "imdb_info" "plot" "TEXT" ""
  addColumnIfMissing "tv_shows" "plot" "TEXT" ""
  let _ ← inc_minor_version
  DbM.pure ()

def addResourceSize_execute : DbM Unit := do
  let v ← connVersion
  backupDatabase (.pair v)
  addColumnIfMissing "history" "size" "NUMERIC" "-1"
  let _ ← inc_minor_version
  DbM.pure ()

def addPKIndexerMapping_execute : DbM Unit := do
  let v ← connVersion
  backupDatabase (.pair v)
  dbAction "DROP TABLE IF EXISTS new_indexer_mapping;" (dropTableEff "new_indexer_mapping")
  dbAction "CREATE TABLE IF NOT EXISTS new_indexer_mapping (...)"
    (createTableEff "new_indexer_mapping" ["indexer_id", "indexer", "mindexer_id", "mindexer"])
  -- full copy: the logical `indexer_mapping` row contents are unchanged
  dbAction "INSERT INTO new_indexer_mapping SELECT * FROM indexer_mapping;" id
  dbAction "DROP TABLE IF EXISTS indexer_mapping;" (dropTableEff "indexer_mapping")
  dbAction "ALTER TABLE new_indexer_mapping RENAME TO indexer_mapping;"
    (renameTableEff "new_indexer_mapping" "indexer_mapping")
  dbAction "DROP TABLE IF EXISTS new_indexer_mapping;" (dropTableEff "new_indexer_mapping")
  let _ ← inc_minor_version
  DbM.pure ()

def addIndexerInteger_execute : DbM Unit := do
  let v ← connVersion
  backupDatabase (.pair v)
  dbAction "DROP TABLE IF EXISTS new_tv_episodes;" (dropTableEff "new_tv_episodes")
  dbAction "CREATE TABLE new_tv_episodes (...)" (createTableEff "new_tv_episodes"
    (((freshSchemaTables.lookup "tv_episodes").getD []) ++ ["manually_searched"]))
  -- full copy: the logical `tv_episodes` row contents are unchanged
  dbAction "INSERT INTO new_tv_episodes SELECT * FROM tv_episodes;" id
  dbAction "DROP TABLE IF EXISTS tv_episodes;" (dropTableEff "tv_episodes")
  dbAction "ALTER TABLE new_tv_episodes RENAME TO tv_episodes;"
    (renameTableEff "new_tv_episodes" "tv_episodes")
  -- the source drops `new_tv_episodoes` here — a typo, so a no-op
  dbAction "DROP TABLE IF EXISTS new_tv_episodoes;" (dropTableEff "new_tv_episodoes")
  let _ ← inc_minor_version
  DbM.pure ()

/-- One entry of the upgrade chain: its `test` and its `execute`. -/
structure DbMigration where
  test : DbState → Bool
  execute : DbM Unit

/-- The ordered chain of `main_db.py` (each class subclasses the previous;
per spec §9 represented as the explicit ordered list). -/
def dbMigrations : List DbMigration := [
  ⟨fun s => hasTableP s "db_version", initialSchema_execute⟩,
  ⟨fun s => 40 ≤ s.version.1, addVersionToTvEpisodes_execute⟩,
  ⟨fun s => 41 ≤ s.version.1, addDefaultEpStatusToTvShows_execute⟩,
  ⟨fun s => 42 ≤ s.version.1, alterTVShowsFieldTypes_execute⟩,
  ⟨fun s => 42 ≤ s.version.1 ∧ hasColumnP s "db_version" "db_minor_version",
    addMinorVersion_execute⟩,
  ⟨fun s => verGE s.version (44, 0), testIncreaseMajorVersion_execute⟩,
  ⟨fun s => verGE s.version (44, 2), addProperTags_execute⟩,
  ⟨fun s => verGE s.version (44, 3), addManualSearched_execute⟩,
  ⟨fun s => verGE s.version (44, 4), addInfoHash_execute⟩,
  ⟨fun s => verGE s.version (44, 5), addPlot_execute⟩,
  ⟨fun s => verGE s.version (44, 6), addResourceSize_execute⟩,
  ⟨fun s => verGE s.version (44, 7), addPKIndexerMapping_execute⟩,
  ⟨fun s => verGE s.version (44, 8), addIndexerInteger_execute⟩]

/-- The twelve upgrade executes (everything after `InitialSchema`): the
steps the backup-before-transform guarantee quantifies over —
`InitialSchema` itself only creates a fresh store or checks versions. -/
def dbUpgradeExecutes : List (DbM Unit) := (dbMigrations.drop 1).map (fun m => m.execute)

/-- Modelled from the spec (§4.3 `run_all`): the driver in `db.py` walks
the chain in order and runs `execute` for every step whose `test` fails. -/
def db_upgrade : DbM Unit :=
  mFor dbMigrations (fun m => do
    let s ← getS
    if m.test s then DbM.pure () else m.execute)

/-! ### Specification predicates and concrete instances -/

/-- Every event in the list is a plain SQL statement (no backup, no error
log). -/
def OnlySqlEvents (l : List DbEvent) : Prop :=
  ∀ e ∈ l, ∃ stmt, e = DbEvent.sql stmt

/-- A computation only ever appends SQL-statement events to the log,
whether it finishes or halts. -/
def OnlySql (m : DbM α) : Prop :=
  ∀ env n s, match m env n s with
  | .ok (_, _, s2) => ∃ rest, s2.events = s.events ++ rest ∧ OnlySqlEvents rest
  | .error h => ∃ rest, (Halt.state h).events = s.events ++ rest ∧ OnlySqlEvents rest

/-- Any outcome of a step extends the trace with the backup of `arg` first
and then only SQL statements: the snapshot is taken exactly once, strictly
before every mutating statement of the step. -/
def TraceBackupFirst (out : Except Halt (Unit × Nat × DbState)) (s : DbState)
    (arg : BackupArg) : Prop :=
  match out with
  | .ok (_, _, s2) =>
    ∃ rest, s2.events = s.events ++ DbEvent.backup arg :: rest ∧ OnlySqlEvents rest
  | .error h =>
    ∃ rest, (Halt.state h).events = s.events ++ DbEvent.backup arg :: rest ∧ OnlySqlEvents rest

/-- The backup contract of one DB upgrade step: on backup failure the
process exits with status 1 before any transform action, leaving the
store unchanged (only the error log is emitted); on success the backup
event strictly precedes every statement of the step. -/
def StepBackupSpec (ex : DbM Unit) (argOf : DbState → BackupArg) : Prop :=
  ∀ env n s,
    (env.backupOk (argOf s) = false →
      ex env n s = .error (.exit 1 { s with events := s.events ++ [.logError] })) ∧
    (env.backupOk (argOf s) = true → TraceBackupFirst (ex env n s) s (argOf s))

/-- `r` holds the smallest `episode_id` among the rows sharing its
`(showid, season, episode)` key — the surviving exemplar of
`fix_duplicate_episodes`. -/
def isMinForKey (rows : List EpRow) (r : EpRow) : Bool :=
  rows.all (fun q => if epKey q = epKey r then r.episode_id ≤ q.episode_id else true)

/-- A benign environment: no engine failure, identity row order, backups
succeed, no external facts. -/
def envOk : DbEnv where
  failAt := fun _ => false
  shuffleShows := id
  today := 700000
  statusMap := []
  fileExists := fun _ => false
  nameQuality := fun _ _ => 0
  compositeStatus := fun a b => a + b
  backupOk := fun _ => true
  properTags := fun _ => []

/-- `envOk` but the very first engine call raises. -/
def envFail0 : DbEnv := { envOk with failAt := fun n => n = 0 }

/-- `envOk` but the engine returns un-`ORDER BY`ed rows in reverse order. -/
def envRev : DbEnv := { envOk with shuffleShows := List.reverse }

/-- `envOk` but every backup attempt fails. -/
def envNoBackup : DbEnv := { envOk with backupOk := fun _ => false }

/-- A store whose only content is one null indexer mapping (used to show
that a failing early sanity check prevents `clean_null_indexer_mappings`
from repairing it). -/
def sNullMapping : DbState where
  version := (44, 8)
  tables := []
  indexes := ["idx_indexer_id", "idx_tv_episodes_showid_airdate", "idx_showid",
    "idx_status", "idx_sta_epi_air", "idx_sta_epi_sta_air"]
  tv_shows := []
  tv_episodes := []
  indexer_mapping := [⟨""⟩]
  history := []
  events := []

/-- A store with two shows sharing `indexer_id = 7`. -/
def sDupShows : DbState :=
  { sNullMapping with
    indexer_mapping := []
    tv_shows := [⟨1, 7, "", "", 0⟩, ⟨2, 7, "", "", 0⟩] }

/-- A store with three episodes sharing the compound key `(7, 1, 2)`. -/
def sDupEps : DbState :=
  { sNullMapping with
    indexer_mapping := []
    tv_episodes := [⟨5, 7, 1, 2, 100, some 1, "", "", 0, ""⟩,
                    ⟨3, 7, 1, 2, 100, some 1, "", "", 0, ""⟩,
                    ⟨9, 7, 1, 2, 100, some 1, "", "", 0, ""⟩,
                    ⟨4, 8, 1, 2, 100, some 1, "", "", 0, ""⟩] }

/-- A store already stamped with `db_version` 45 > `MAX_DB_VERSION`. -/
def sTooNew : DbState :=
  { sNullMapping with
    indexer_mapping := []
    version := (45, 0)
    tables := [("db_version", ["db_version", "db_minor_version"])] ++ freshSchemaTables.drop 1 }

/-- Identity encryption (what `helpers.encrypt`/`decrypt` do at version 0). -/
def encryptId : String → Nat → String := fun v _ => v

/-- Identity decryption, reading the stored value back as a string. -/
def decryptId : CVal → Nat → Option String := fun v _ => some (pyStr v)

/-- A config carrying every key `_migrate_v10` indexes directly, but
neither a `TorrentRss` nor a `Newznab` section. -/
def cfgV10NoProviders : Config := [
  ("General", [
    ("git_reset_branches", .str "develop,master"),
    ("allowed_extensions", .str "srt,nfo"),
    ("provider_order", .str ""),
    ("root_dirs", .str ""),
    ("sync_files", .str ""),
    ("ignore_words", .str ""),
    ("preferred_words", .str ""),
    ("undesired_words", .str ""),
    ("trackers_list", .str ""),
    ("require_words", .str ""),
    ("ignored_subs_list", .str ""),
    ("broken_providers", .str ""),
    ("extra_scripts", .str ""),
    ("metadata_kodi", .str "0|0|0|0|0|0|0|0|0|0"),
    ("metadata_kodi_12plus", .str "0|0|0|0|0|0|0|0|0|0"),
    ("metadata_mediabrowser", .str "0|0|0|0|0|0|0|0|0|0"),
    ("metadata_ps3", .str "0|0|0|0|0|0|0|0|0|0"),
    ("metadata_wdtv", .str "0|0|0|0|0|0|0|0|0|0"),
    ("metadata_tivo", .str "0|0|0|0|0|0|0|0|0|0"),
    ("metadata_mede8er", .str "0|0|0|0|0|0|0|0|0|0")]),
  ("Subtitles", [
    ("subtitles_languages", .str ""),
    ("SUBTITLES_SERVICES_LIST", .str ""),
    ("SUBTITLES_SERVICES_ENABLED", .str "")]),
  ("KODI", [("kodi_host", .str "")]),
  ("Plex", [("plex_server_host", .str ""), ("plex_client_host", .str "")]),
  ("Prowl", [("prowl_api", .str "")]),
  ("Pushover", [("pushover_device", .str "")]),
  ("NMA", [("nma_api", .str "")]),
  ("Email", [("email_list", .str "")])]

/-- The trivial external environment for `_migrate_v10`. -/
def envV10 : V10Env := ⟨fun _ => []⟩

/-- A parseable two-descriptor provider list (9 fields each, duplicate
name `A`). -/
def dupProviderData : String :=
  "A|u1|c|t|1|eponly|0|0|0!!!A|u2|c|t|0|eponly|0|1|0"

end Medusa

namespace Medusa

/-! ## Theorems -/

theorem pySplitC_ne_nil (sep : Char) (l : List Char) : pySplitC sep l ≠ [] := by
  cases l with
  | nil => simp [pySplitC]
  | cons c cs =>
    simp only [pySplitC]
    by_cases h : c = sep
    · simp [h]
    · rw [if_neg h]
      cases pySplitC sep cs <;> simp

theorem pyJoinC_pySplitC (sep : Char) (l : List Char) :
    pyJoinC sep (pySplitC sep l) = l := by
  induction l with
  | nil => rfl
  | cons c cs ih =>
    obtain ⟨r, rs, hrs⟩ := List.exists_cons_of_ne_nil (pySplitC_ne_nil sep cs)
    simp only [pySplitC]
    by_cases h : c = sep
    · rw [if_pos h, hrs]
      rw [hrs] at ih
      simp only [pyJoinC, List.nil_append]
      rw [ih, h]
    · rw [if_neg h, hrs]
      rw [hrs] at ih
      cases rs with
      | nil => simp only [pyJoinC] at ih ⊢; rw [ih]
      | cons r' rs' =>
        simp only [pyJoinC, List.cons_append] at ih ⊢
        rw [ih]

theorem pyJoin_pySplit (sep : Char) (s : String) :
    pyJoin sep (pySplit sep s) = s := by
  unfold pyJoin pySplit
  rw [List.map_map]
  have h : (String.data ∘ fun l => (⟨l⟩ : String)) = id := rfl
  rw [h, List.map_id, pyJoinC_pySplitC]

/-! ### C9 — running the chain twice -/

theorem migrateSteps_version_of_not_aborted {σ : Type} (bk : Nat → Bool)
    (step : Nat → σ → Option σ) :
    ∀ (fuel cv : Nat) (st : σ), (migrateSteps bk step fuel cv st).aborted = false →
      (migrateSteps bk step fuel cv st).version = cv + fuel := by
  intro fuel
  induction fuel with
  | zero => intro cv st _; simp [migrateSteps]
  | succ fuel ih =>
    intro cv st h
    simp only [migrateSteps] at h ⊢
    by_cases hbk : bk cv
    · rw [if_pos hbk] at h ⊢
      cases hst : step (cv + 1) st with
      | none => rw [hst] at h; simp at h
      | some st2 =>
        rw [hst] at h
        dsimp only at h ⊢
        have := ih (cv + 1) st2 h
        rw [this]
        omega
    · rw [if_neg hbk] at h
      simp at h

/-- **C9.**  If a run of `migrate_config` completes without aborting, the
ledger is at the expected version, and a second run from that state is a
no-op: the loop body executes zero times, so the trace is empty (no
backup, no transform, no save) and the resulting store and version are
identical to the input. -/
theorem C9_second_run_is_noop {σ : Type} (bk bk2 : Nat → Bool)
    (step step2 : Nat → σ → Option σ) (cv ev : Nat) (st : σ)
    (h : (migrate_config bk step cv ev st).aborted = false) :
    (migrate_config bk step cv ev st).version = ev ∧
    migrate_config bk2 step2 (migrate_config bk step cv ev st).version ev
        (migrate_config bk step cv ev st).store =
      ⟨[], (migrate_config bk step cv ev st).store, ev, false⟩ := by
  have hv : (migrate_config bk step cv ev st).version = ev := by
    unfold migrate_config at h ⊢
    by_cases hc : ev < cv
    · rw [if_pos hc] at h
      simp at h
    · rw [if_neg hc] at h ⊢
      have := migrateSteps_version_of_not_aborted bk step (ev - cv) cv st h
      rw [this]
      omega
  refine ⟨hv, ?_⟩
  rw [hv]
  unfold migrate_config
  rw [if_neg (lt_irrefl ev), Nat.sub_self]
  rfl

/-- **C9, witness**: a concrete two-step run to the maximum, then the
no-op second run. -/
theorem C9_second_run_is_noop_witness :
    migrate_config (fun _ => true) (fun _ (n : Nat) => some (n + 1))
        (migrate_config (fun _ => true) (fun _ (n : Nat) => some (n + 1)) 0 2 0).version 2
        (migrate_config (fun _ => true) (fun _ (n : Nat) => some (n + 1)) 0 2 0).store =
      ⟨[], (migrate_config (fun _ => true) (fun _ (n : Nat) => some (n + 1)) 0 2 0).store,
        2, false⟩ :=
  (C9_second_run_is_noop (fun _ => true) (fun _ => true) (fun _ n => some (n + 1))
    (fun _ n => some (n + 1)) 0 2 0 rfl).2

/-! ### C1 — backup strictly before every step (config chain lemmas) -/

theorem migrateSteps_backup_lb {σ : Type} (bk : Nat → Bool) (step : Nat → σ → Option σ) :
    ∀ (fuel cv : Nat) (st : σ) (u : Nat),
      CfgEvent.backup u ∈ (migrateSteps bk step fuel cv st).events → cv ≤ u := by
  intro fuel
  induction fuel with
  | zero => intro cv st u h; simp [migrateSteps] at h
  | succ fuel ih =>
    intro cv st u h
    simp only [migrateSteps] at h
    by_cases hbk : bk cv
    · rw [if_pos hbk] at h
      cases hst : step (cv + 1) st with
      | none =>
        rw [hst] at h
        simp only [List.mem_singleton, CfgEvent.backup.injEq] at h
        omega
      | some st2 =>
        rw [hst] at h
        dsimp only at h
        simp only [List.mem_cons] at h
        rcases h with h | h | h | h
        · cases h; exact Nat.le_refl _
        · cases h
        · cases h
        · have := ih (cv + 1) st2 u h; omega
    · rw [if_neg hbk] at h
      simp at h

theorem migrateSteps_backupFail_lb {σ : Type} (bk : Nat → Bool) (step : Nat → σ → Option σ) :
    ∀ (fuel cv : Nat) (st : σ) (u : Nat),
      CfgEvent.backupFail u ∈ (migrateSteps bk step fuel cv st).events → cv ≤ u := by
  intro fuel
  induction fuel with
  | zero => intro cv st u h; simp [migrateSteps] at h
  | succ fuel ih =>
    intro cv st u h
    simp only [migrateSteps] at h
    by_cases hbk : bk cv
    · rw [if_pos hbk] at h
      cases hst : step (cv + 1) st with
      | none => rw [hst] at h; simp at h
      | some st2 =>
        rw [hst] at h
        dsimp only at h
        simp only [List.mem_cons] at h
        rcases h with h | h | h | h
        · cases h
        · cases h
        · cases h
        · have := ih (cv + 1) st2 u h; omega
    · rw [if_neg hbk] at h
      simp only [List.mem_singleton, CfgEvent.backupFail.injEq] at h
      omega

theorem migrateSteps_transform_lb {σ : Type} (bk : Nat → Bool) (step : Nat → σ → Option σ) :
    ∀ (fuel cv : Nat) (st : σ) (u : Nat),
      CfgEvent.transform u ∈ (migrateSteps bk step fuel cv st).events → cv + 1 ≤ u := by
  intro fuel
  induction fuel with
  | zero => intro cv st u h; simp [migrateSteps] at h
  | succ fuel ih =>
    intro cv st u h
    simp only [migrateSteps] at h
    by_cases hbk : bk cv
    · rw [if_pos hbk] at h
      cases hst : step (cv + 1) st with
      | none => rw [hst] at h; simp at h
      | some st2 =>
        rw [hst] at h
        dsimp only at h
        simp only [List.mem_cons] at h
        rcases h with h | h | h | h
        · cases h
        · cases h; exact Nat.le_refl _
        · cases h
        · have := ih (cv + 1) st2 u h; omega
    · rw [if_neg hbk] at h
      simp at h

/-- Every transform event is immediately preceded by the (unique) backup
event of its step. -/
theorem migrateSteps_backup_precedes {σ : Type} (bk : Nat → Bool)
    (step : Nat → σ → Option σ) :
    ∀ (fuel cv : Nat) (st : σ) (v : Nat),
      CfgEvent.transform v ∈ (migrateSteps bk step fuel cv st).events →
      ∃ l1 l2, (migrateSteps bk step fuel cv st).events
          = l1 ++ CfgEvent.backup (v - 1) :: CfgEvent.transform v :: l2
        ∧ CfgEvent.backup (v - 1) ∉ l1 ∧ CfgEvent.backup (v - 1) ∉ l2 := by
  intro fuel
  induction fuel with
  | zero => intro cv st v h; simp [migrateSteps] at h
  | succ fuel ih =>
    intro cv st v h
    simp only [migrateSteps] at h ⊢
    by_cases hbk : bk cv
    · rw [if_pos hbk] at h ⊢
      cases hst : step (cv + 1) st with
      | none => rw [hst] at h; simp at h
      | some st2 =>
        rw [hst] at h
        dsimp only at h ⊢
        simp only [List.mem_cons] at h
        rcases h with h | h | h | h
        · cases h
        · cases h
          refine ⟨[], CfgEvent.save (cv + 1) ::
            (migrateSteps bk step fuel (cv + 1) st2).events, ?_, ?_, ?_⟩
          · simp
          · simp
          · intro hmem
            rcases List.mem_cons.mp hmem with h2 | h2
            · cases h2
            · have := migrateSteps_backup_lb bk step fuel (cv + 1) st2 _ h2
              omega
        · cases h
        · have hlb := migrateSteps_transform_lb bk step fuel (cv + 1) st2 v h
          obtain ⟨l1, l2, heq, hn1, hn2⟩ := ih (cv + 1) st2 v h
          refine ⟨CfgEvent.backup cv :: CfgEvent.transform (cv + 1) ::
            CfgEvent.save (cv + 1) :: l1, l2, ?_, ?_, hn2⟩
          · simp [heq]
          · intro hmem
            rcases List.mem_cons.mp hmem with h2 | h2
            · have : v - 1 = cv := by cases h2; rfl
              omega
            · rcases List.mem_cons.mp h2 with h3 | h3
              · cases h3
              · rcases List.mem_cons.mp h3 with h4 | h4
                · cases h4
                · exact hn1 h4
    · rw [if_neg hbk] at h
      simp at h

/-- A failed backup attempt at version `u` ends the run: the run is
aborted, the ledger stays at `u`, no transform of a later step appears,
and the failure is the final event. -/
theorem migrateSteps_backupFail_aborts {σ : Type} (bk : Nat → Bool)
    (step : Nat → σ → Option σ) :
    ∀ (fuel cv : Nat) (st : σ) (u : Nat),
      CfgEvent.backupFail u ∈ (migrateSteps bk step fuel cv st).events →
      (migrateSteps bk step fuel cv st).aborted = true ∧
      (migrateSteps bk step fuel cv st).version = u ∧
      (∀ w, CfgEvent.transform w ∈ (migrateSteps bk step fuel cv st).events → w ≤ u) ∧
      (migrateSteps bk step fuel cv st).events.getLast? = some (CfgEvent.backupFail u) := by
  intro fuel
  induction fuel with
  | zero => intro cv st u h; simp [migrateSteps] at h
  | succ fuel ih =>
    intro cv st u h
    simp only [migrateSteps] at h ⊢
    by_cases hbk : bk cv
    · rw [if_pos hbk] at h ⊢
      cases hst : step (cv + 1) st with
      | none => rw [hst] at h; simp at h
      | some st2 =>
        rw [hst] at h
        dsimp only at h ⊢
        have hmem : CfgEvent.backupFail u ∈ (migrateSteps bk step fuel (cv + 1) st2).events := by
          simp only [List.mem_cons] at h
          rcases h with h | h | h | h
          · cases h
          · cases h
          · cases h
          · exact h
        obtain ⟨ha, hv, ht, hl⟩ := ih (cv + 1) st2 u hmem
        have hub : cv + 1 ≤ u := migrateSteps_backupFail_lb bk step fuel (cv + 1) st2 u hmem
        refine ⟨ha, hv, ?_, ?_⟩
        · intro w hw
          rcases List.mem_cons.mp hw with h2 | h2
          · cases h2
          · rcases List.mem_cons.mp h2 with h3 | h3
            · cases h3; omega
            · rcases List.mem_cons.mp h3 with h4 | h4
              · cases h4
              · exact ht w h4
        · have hne : (migrateSteps bk step fuel (cv + 1) st2).events ≠ [] := by
            intro hemp; rw [hemp] at hmem; cases hmem
          obtain ⟨x, xs, hx⟩ := List.exists_cons_of_ne_nil hne
          rw [hx] at hl ⊢
          simpa [List.getLast?_cons_cons] using hl
    · rw [if_neg hbk] at h ⊢
      simp only [List.mem_singleton, CfgEvent.backupFail.injEq] at h
      subst h
      refine ⟨rfl, rfl, ?_, rfl⟩
      intro w hw
      simp at hw

/-! ### C1 — backup strictly before every step (DB chain lemmas)

`OnlySql` is closed under all the combinators from which the post-backup
bodies of the upgrade steps are built. -/

theorem onlySqlEvents_nil : OnlySqlEvents [] := by
  intro e he; cases he

theorem onlySqlEvents_append {l1 l2 : List DbEvent}
    (h1 : OnlySqlEvents l1) (h2 : OnlySqlEvents l2) : OnlySqlEvents (l1 ++ l2) := by
  intro e he
  rcases List.mem_append.mp he with h | h
  · exact h1 e h
  · exact h2 e h

theorem onlySql_pure (a : α) : OnlySql (DbM.pure a) := by
  intro env n s
  exact ⟨[], by simp [DbM.pure], onlySqlEvents_nil⟩

theorem onlySql_tick : OnlySql tick := by
  intro env n s
  unfold tick
  by_cases h : env.failAt n
  · rw [if_pos h]
    exact ⟨[], by simp [Halt.state], onlySqlEvents_nil⟩
  · rw [if_neg h]
    exact ⟨[], by simp, onlySqlEvents_nil⟩

theorem onlySql_getS : OnlySql getS := by
  intro env n s
  exact ⟨[], by simp [getS], onlySqlEvents_nil⟩

theorem onlySql_readEnv : OnlySql readEnv := by
  intro env n s
  exact ⟨[], by simp [readEnv], onlySqlEvents_nil⟩

theorem onlySql_bind {x : DbM α} {f : α → DbM β}
    (hx : OnlySql x) (hf : ∀ a, OnlySql (f a)) : OnlySql (DbM.bind x f) := by
  intro env n s
  cases hx1 : x env n s with
  | error h =>
    have hb : DbM.bind x f env n s = .error h := by unfold DbM.bind; rw [hx1]
    have h1 := hx env n s
    rw [hx1] at h1
    rw [hb]
    exact h1
  | ok t =>
    obtain ⟨a, n2, s2⟩ := t
    have hb : DbM.bind x f env n s = f a env n2 s2 := by unfold DbM.bind; rw [hx1]
    have h1 := hx env n s
    rw [hx1] at h1
    rw [hb]
    obtain ⟨r1, he1, ho1⟩ := h1
    have h2 := hf a env n2 s2
    cases hx2 : f a env n2 s2 with
    | error hh =>
      rw [hx2] at h2
      obtain ⟨r2, he2, ho2⟩ := h2
      exact ⟨r1 ++ r2, by rw [he2, he1, List.append_assoc],
        onlySqlEvents_append ho1 ho2⟩
    | ok t2 =>
      obtain ⟨b, n3, s3⟩ := t2
      rw [hx2] at h2
      obtain ⟨r2, he2, ho2⟩ := h2
      exact ⟨r1 ++ r2, by rw [he2, he1, List.append_assoc],
        onlySqlEvents_append ho1 ho2⟩

theorem onlySql_bind' {x : DbM α} {f : α → DbM β}
    (hx : OnlySql x) (hf : ∀ a, OnlySql (f a)) : OnlySql (x >>= f) :=
  onlySql_bind hx hf

theorem onlySql_stateRead (g : DbState → α) :
    OnlySql (DbM.bind getS (fun s => DbM.pure (g s))) :=
  onlySql_bind onlySql_getS (fun a => onlySql_pure (g a))

theorem bind_def (x : DbM α) (f : α → DbM β) : x >>= f = DbM.bind x f := rfl

theorem pure_def (a : α) : (Pure.pure a : DbM α) = DbM.pure a := rfl

theorem onlySql_dbAction (stmt : String) (f : DbState → DbState)
    (hf : ∀ s, (f s).events = s.events) : OnlySql (dbAction stmt f) := by
  intro env n s
  by_cases h : env.failAt n
  · have hd : dbAction stmt f env n s = .error (.exc (n + 1) s) := by
      simp [dbAction, bind_def, DbM.bind, tick, if_pos h]
    rw [hd]
    exact ⟨[], by simp [Halt.state], onlySqlEvents_nil⟩
  · have hd : dbAction stmt f env n s =
        .ok ((), n + 1,
          { f s with events := (f s).events ++ [DbEvent.sql stmt] }) := by
      simp [dbAction, bind_def, DbM.bind, tick, if_neg h, modifyS]
    rw [hd]
    refine ⟨[DbEvent.sql stmt], by simp [hf s], ?_⟩
    intro e he
    rw [List.mem_singleton] at he
    exact ⟨stmt, he⟩

theorem onlySql_dbSelect (f : DbEnv → DbState → α) : OnlySql (dbSelect f) := by
  have : OnlySql (tick >>= fun _ => readEnv >>= fun env => getS >>= fun s =>
      (Pure.pure (f env s) : DbM α)) := by
    rw [bind_def]
    refine onlySql_bind onlySql_tick (fun _ => ?_)
    rw [bind_def]
    refine onlySql_bind onlySql_readEnv (fun env => ?_)
    rw [bind_def]
    refine onlySql_bind onlySql_getS (fun s => ?_)
    rw [pure_def]
    exact onlySql_pure _
  exact this

theorem onlySql_mFor (l : List α) (f : α → DbM Unit)
    (hf : ∀ a, OnlySql (f a)) : OnlySql (mFor l f) := by
  induction l with
  | nil => exact onlySql_pure ()
  | cons a as ih => exact onlySql_bind (hf a) (fun _ => ih)

theorem onlySql_ite (c : Prop) [Decidable c] {x y : DbM α}
    (hx : OnlySql x) (hy : OnlySql y) : OnlySql (if c then x else y) := by
  by_cases h : c
  · rw [if_pos h]; exact hx
  · rw [if_neg h]; exact hy

theorem onlySql_checkDBVersion : OnlySql checkDBVersion :=
  onlySql_stateRead _

theorem onlySql_connVersion : OnlySql connVersion :=
  onlySql_stateRead _

theorem onlySql_hasColumn (t c : String) : OnlySql (hasColumn t c) :=
  onlySql_stateRead _

theorem onlySql_addColumn (t c ty d : String) : OnlySql (addColumn t c ty d) :=
  onlySql_dbAction _ _ (fun _ => rfl)

theorem onlySql_addColumnIfMissing (t c ty d : String) :
    OnlySql (addColumnIfMissing t c ty d) := by
  unfold addColumnIfMissing
  exact onlySql_bind' (onlySql_hasColumn t c) (fun h =>
    onlySql_ite _ (onlySql_addColumn t c ty d) (onlySql_pure ()))

theorem onlySql_incDBVersion : OnlySql incDBVersion :=
  onlySql_bind onlySql_connVersion (fun _ => onlySql_dbAction _ _ (fun _ => rfl))

theorem onlySql_inc_major : OnlySql inc_major_version :=
  onlySql_bind onlySql_connVersion (fun _ =>
    onlySql_bind (onlySql_dbAction _ _ (fun _ => rfl)) (fun _ => onlySql_pure _))

theorem onlySql_inc_minor : OnlySql inc_minor_version :=
  onlySql_bind onlySql_connVersion (fun _ =>
    onlySql_bind (onlySql_dbAction _ _ (fun _ => rfl)) (fun _ => onlySql_pure _))

theorem onlySql_update_old_propers : OnlySql update_old_propers := by
  have : OnlySql (dbSelect (fun _ s =>
      (s.history.filter (fun h =>
        (h.proper_tags = none ∨ h.proper_tags = some "") ∧
        (pyEndsWith (toString h.action) "2" ∨ pyEndsWith (toString h.action) "9") ∧
        (likeContains h.resource "REPACK" ∨ likeContains h.resource "PROPER" ∨
          likeContains h.resource "REAL"))).map (fun h => h.resource)) >>=
      fun propers => mFor propers (fun resource =>
        readEnv >>= fun env =>
          if (env.properTags resource).isEmpty then DbM.pure ()
          else dbAction "UPDATE history SET proper_tags = ? WHERE resource = ?"
            (fun s => { s with history := (s.history.map
              (fun h => if h.resource = resource then
                { h with proper_tags := some (String.intercalate "|" (env.properTags resource)) }
                else h)) }))) := by
    rw [bind_def]
    refine onlySql_bind (onlySql_dbSelect _) (fun propers => ?_)
    refine onlySql_mFor _ _ (fun resource => ?_)
    rw [bind_def]
    refine onlySql_bind onlySql_readEnv (fun env => ?_)
    exact onlySql_ite _ (onlySql_pure ()) (onlySql_dbAction _ _ (fun _ => rfl))
  exact this

/-- Backup contract for steps of the shape
`connection.version` → `backupDatabase` → transform. -/
theorem stepBackupSpec_pair (k : Nat × Nat → DbM Unit) (hk : ∀ v, OnlySql (k v)) :
    StepBackupSpec (connVersion >>= fun v => backupDatabase (.pair v) >>= fun _ => k v)
      (fun s => .pair s.version) := by
  intro env n s
  have hred : (connVersion >>= fun v => backupDatabase (.pair v) >>= fun _ => k v) env n s
      = (backupDatabase (.pair s.version) >>= fun _ => k s.version) env n s := rfl
  constructor
  · intro hbk
    rw [hred, bind_def]
    unfold DbM.bind backupDatabase
    rw [hbk]
    rfl
  · intro hbk
    rw [hred]
    have hred2 : (backupDatabase (.pair s.version) >>= fun _ => k s.version) env n s
        = k s.version env n
            { s with events := s.events ++ [DbEvent.backup (.pair s.version)] } := by
      rw [bind_def]
      unfold DbM.bind backupDatabase
      rw [hbk]
      rfl
    rw [hred2]
    have h2 := hk s.version env n
      { s with events := s.events ++ [DbEvent.backup (.pair s.version)] }
    unfold TraceBackupFirst
    cases hx : k s.version env n
        { s with events := s.events ++ [DbEvent.backup (.pair s.version)] } with
    | error h =>
      rw [hx] at h2
      obtain ⟨rest, he, ho⟩ := h2
      exact ⟨rest, by simpa using he, ho⟩
    | ok t =>
      obtain ⟨a, n2, s2⟩ := t
      rw [hx] at h2
      obtain ⟨rest, he, ho⟩ := h2
      exact ⟨rest, by simpa using he, ho⟩

/-- Backup contract for steps of the shape
`checkDBVersion` → `backupDatabase` → transform. -/
theorem stepBackupSpec_major (k : Nat → DbM Unit) (hk : ∀ v, OnlySql (k v)) :
    StepBackupSpec (checkDBVersion >>= fun v => backupDatabase (.major v) >>= fun _ => k v)
      (fun s => .major s.version.1) := by
  intro env n s
  have hred : (checkDBVersion >>= fun v => backupDatabase (.major v) >>= fun _ => k v) env n s
      = (backupDatabase (.major s.version.1) >>= fun _ => k s.version.1) env n s := rfl
  constructor
  · intro hbk
    rw [hred, bind_def]
    unfold DbM.bind backupDatabase
    rw [hbk]
    rfl
  · intro hbk
    rw [hred]
    have hred2 : (backupDatabase (.major s.version.1) >>= fun _ => k s.version.1) env n s
        = k s.version.1 env n
            { s with events := s.events ++ [DbEvent.backup (.major s.version.1)] } := by
      rw [bind_def]
      unfold DbM.bind backupDatabase
      rw [hbk]
      rfl
    rw [hred2]
    have h2 := hk s.version.1 env n
      { s with events := s.events ++ [DbEvent.backup (.major s.version.1)] }
    unfold TraceBackupFirst
    cases hx : k s.version.1 env n
        { s with events := s.events ++ [DbEvent.backup (.major s.version.1)] } with
    | error h =>
      rw [hx] at h2
      obtain ⟨rest, he, ho⟩ := h2
      exact ⟨rest, by simpa using he, ho⟩
    | ok t =>
      obtain ⟨a, n2, s2⟩ := t
      rw [hx] at h2
      obtain ⟨rest, he, ho⟩ := h2
      exact ⟨rest, by simpa using he, ho⟩

theorem step_spec_addVersionToTvEpisodes :
    StepBackupSpec addVersionToTvEpisodes_execute (fun s => .major s.version.1) :=
  stepBackupSpec_major _ (fun _ =>
    onlySql_bind' (onlySql_addColumn _ _ _ _) (fun _ =>
      onlySql_bind' (onlySql_addColumn _ _ _ _) (fun _ =>
        onlySql_bind' (onlySql_addColumn _ _ _ _) (fun _ => onlySql_incDBVersion))))

theorem step_spec_addDefaultEpStatusToTvShows :
    StepBackupSpec addDefaultEpStatusToTvShows_execute (fun s => .major s.version.1) :=
  stepBackupSpec_major _ (fun _ =>
    onlySql_bind' (onlySql_addColumn _ _ _ _) (fun _ => onlySql_incDBVersion))

theorem step_spec_alterTVShowsFieldTypes :
    StepBackupSpec alterTVShowsFieldTypes_execute (fun s => .major s.version.1) :=
  stepBackupSpec_major _ (fun _ =>
    onlySql_bind' (onlySql_dbAction _ _ (fun _ => rfl)) (fun _ =>
      onlySql_bind' (onlySql_dbAction _ _ (fun _ => rfl)) (fun _ =>
        onlySql_bind' (onlySql_dbAction _ _ (fun _ => rfl)) (fun _ =>
          onlySql_bind' (onlySql_dbAction _ _ (fun _ => rfl)) (fun _ =>
            onlySql_bind' (onlySql_dbAction _ _ (fun _ => rfl)) (fun _ =>
              onlySql_incDBVersion))))))

theorem step_spec_addMinorVersion :
    StepBackupSpec addMinorVersion_execute (fun s => .major s.version.1) :=
  stepBackupSpec_major _ (fun _ =>
    onlySql_bind' (onlySql_addColumn _ _ _ _) (fun _ =>
      onlySql_bind' onlySql_inc_minor (fun _ => onlySql_pure ())))

theorem step_spec_testIncreaseMajorVersion :
    StepBackupSpec testIncreaseMajorVersion_execute (fun s => .pair s.version) :=
  stepBackupSpec_pair _ (fun _ =>
    onlySql_bind' onlySql_inc_major (fun _ =>
      onlySql_bind' onlySql_inc_minor (fun _ => onlySql_pure ())))

theorem step_spec_addProperTags :
    StepBackupSpec addProperTags_execute (fun s => .pair s.version) :=
  stepBackupSpec_pair _ (fun _ =>
    onlySql_bind' (onlySql_addColumnIfMissing _ _ _ _) (fun _ =>
      onlySql_bind' onlySql_update_old_propers (fun _ =>
        onlySql_bind' onlySql_inc_minor (fun _ => onlySql_pure ()))))

theorem step_spec_addManualSearched :
    StepBackupSpec addManualSearched_execute (fun s => .pair s.version) :=
  stepBackupSpec_pair _ (fun _ =>
    onlySql_bind' (onlySql_addColumnIfMissing _ _ _ _) (fun _ =>
      onlySql_bind' (onlySql_addColumnIfMissing _ _ _ _) (fun _ =>
        onlySql_bind' onlySql_update_old_propers (fun _ =>
          onlySql_bind' onlySql_inc_minor (fun _ => onlySql_pure ())))))

theorem step_spec_addInfoHash :
    StepBackupSpec addInfoHash_execute (fun s => .pair s.version) :=
  stepBackupSpec_pair _ (fun _ =>
    onlySql_bind' (onlySql_addColumnIfMissing _ _ _ _) (fun _ =>
      onlySql_bind' onlySql_inc_minor (fun _ => onlySql_pure ())))

theorem step_spec_addPlot :
    StepBackupSpec addPlot_execute (fun s => .pair s.version) :=
  stepBackupSpec_pair _ (fun _ =>
    onlySql_bind' (onlySql_addColumnIfMissing _ _ _ _) (fun _ =>
      onlySql_bind' (onlySql_addColumnIfMissing _ _ _ _) (fun _ =>
        onlySql_bind' onlySql_inc_minor (fun _ => onlySql_pure ()))))

theorem step_spec_addResourceSize :
    StepBackupSpec addResourceSize_execute (fun s => .pair s.version) :=
  stepBackupSpec_pair _ (fun _ =>
    onlySql_bind' (onlySql_addColumnIfMissing _ _ _ _) (fun _ =>
      onlySql_bind' onlySql_inc_minor (fun _ => onlySql_pure ())))

theorem step_spec_addPKIndexerMapping :
    StepBackupSpec addPKIndexerMapping_execute (fun s => .pair s.version) :=
  stepBackupSpec_pair _ (fun _ =>
    onlySql_bind' (onlySql_dbAction _ _ (fun _ => rfl)) (fun _ =>
      onlySql_bind' (onlySql_dbAction _ _ (fun _ => rfl)) (fun _ =>
        onlySql_bind' (onlySql_dbAction _ _ (fun _ => rfl)) (fun _ =>
          onlySql_bind' (onlySql_dbAction _ _ (fun _ => rfl)) (fun _ =>
            onlySql_bind' (onlySql_dbAction _ _ (fun _ => rfl)) (fun _ =>
              onlySql_bind' (onlySql_dbAction _ _ (fun _ => rfl)) (fun _ =>
                onlySql_bind' onlySql_inc_minor (fun _ => onlySql_pure ()))))))))

theorem step_spec_addIndexerInteger :
    StepBackupSpec addIndexerInteger_execute (fun s => .pair s.version) :=
  stepBackupSpec_pair _ (fun _ =>
    onlySql_bind' (onlySql_dbAction _ _ (fun _ => rfl)) (fun _ =>
      onlySql_bind' (onlySql_dbAction _ _ (fun _ => rfl)) (fun _ =>
        onlySql_bind' (onlySql_dbAction _ _ (fun _ => rfl)) (fun _ =>
          onlySql_bind' (onlySql_dbAction _ _ (fun _ => rfl)) (fun _ =>
            onlySql_bind' (onlySql_dbAction _ _ (fun _ => rfl)) (fun _ =>
              onlySql_bind' (onlySql_dbAction _ _ (fun _ => rfl)) (fun _ =>
                onlySql_bind' onlySql_inc_minor (fun _ => onlySql_pure ()))))))))

/-- **C1.**  Backup-before-transform, for both chains.
* Config chain (first two conjuncts): in every run of `migrate_config`,
  each step's transform event is immediately preceded by the backup taken
  at the pre-step version, and that backup occurs exactly once in the
  whole trace (never skipped, even for no-op steps such as
  `_migrate_v2`, since the loop backs up before dispatching any step);
  and whenever a backup attempt fails, it is the final event of the run,
  the run is aborted, no later step's transform appears, and the ledger
  stays at the version whose backup failed.
* DB chain (last conjunct): every upgrade step's `execute` first calls
  `backupDatabase`; on backup failure the process exits with code 1
  before any transform statement and the store is untouched (only the
  error log is emitted), and on success the backup event strictly
  precedes every SQL statement of the step and is its only backup. -/
theorem C1_backup_before_every_step :
    (∀ (σ : Type) (bk : Nat → Bool) (step : Nat → σ → Option σ) (cv ev : Nat)
       (st : σ) (v : Nat),
      CfgEvent.transform v ∈ (migrate_config bk step cv ev st).events →
      ∃ l1 l2, (migrate_config bk step cv ev st).events
          = l1 ++ CfgEvent.backup (v - 1) :: CfgEvent.transform v :: l2
        ∧ CfgEvent.backup (v - 1) ∉ l1 ∧ CfgEvent.backup (v - 1) ∉ l2) ∧
    (∀ (σ : Type) (bk : Nat → Bool) (step : Nat → σ → Option σ) (cv ev : Nat)
       (st : σ) (u : Nat),
      CfgEvent.backupFail u ∈ (migrate_config bk step cv ev st).events →
      (migrate_config bk step cv ev st).aborted = true ∧
      (migrate_config bk step cv ev st).version = u ∧
      (∀ w, CfgEvent.transform w ∈ (migrate_config bk step cv ev st).events → w ≤ u) ∧
      (migrate_config bk step cv ev st).events.getLast?
        = some (CfgEvent.backupFail u)) ∧
    (∀ ex ∈ dbUpgradeExecutes, ∃ argOf : DbState → BackupArg, StepBackupSpec ex argOf) := by
  refine ⟨?_, ?_, ?_⟩
  · intro σ bk step cv ev st v h
    unfold migrate_config at h ⊢
    by_cases hc : ev < cv
    · rw [if_pos hc] at h; simp at h
    · rw [if_neg hc] at h ⊢
      exact migrateSteps_backup_precedes bk step (ev - cv) cv st v h
  · intro σ bk step cv ev st u h
    unfold migrate_config at h ⊢
    by_cases hc : ev < cv
    · rw [if_pos hc] at h; simp at h
    · rw [if_neg hc] at h ⊢
      exact migrateSteps_backupFail_aborts bk step (ev - cv) cv st u h
  · intro ex hex
    simp only [dbUpgradeExecutes, dbMigrations, List.drop, List.map, List.mem_cons,
      List.not_mem_nil, or_false] at hex
    rcases hex with h | h | h | h | h | h | h | h | h | h | h | h <;> subst h
    · exact ⟨_, step_spec_addVersionToTvEpisodes⟩
    · exact ⟨_, step_spec_addDefaultEpStatusToTvShows⟩
    · exact ⟨_, step_spec_alterTVShowsFieldTypes⟩
    · exact ⟨_, step_spec_addMinorVersion⟩
    · exact ⟨_, step_spec_testIncreaseMajorVersion⟩
    · exact ⟨_, step_spec_addProperTags⟩
    · exact ⟨_, step_spec_addManualSearched⟩
    · exact ⟨_, step_spec_addInfoHash⟩
    · exact ⟨_, step_spec_addPlot⟩
    · exact ⟨_, step_spec_addResourceSize⟩
    · exact ⟨_, step_spec_addPKIndexerMapping⟩
    · exact ⟨_, step_spec_addIndexerInteger⟩

/-- **C1, witness**: the three conjuncts at concrete inputs — a one-step
run with its backup-transform trace, a failing-backup run (aborted with
the ledger left at 0, no transform), and the first DB upgrade step under
an always-failing backup (exits with code 1 leaving the store
untouched). -/
theorem C1_backup_before_every_step_witness :
    (∃ l1 l2, (migrate_config (fun _ => true) (fun _ (n : Nat) => some n) 0 1 0).events
        = l1 ++ CfgEvent.backup 0 :: CfgEvent.transform 1 :: l2
      ∧ CfgEvent.backup 0 ∉ l1 ∧ CfgEvent.backup 0 ∉ l2) ∧
    ((migrate_config (fun _ => false) (fun _ (n : Nat) => some n) 0 1 0).aborted = true ∧
      (migrate_config (fun _ => false) (fun _ (n : Nat) => some n) 0 1 0).version = 0) ∧
    addVersionToTvEpisodes_execute envNoBackup 0 sTooNew
      = .error (.exit 1 { sTooNew with events := [DbEvent.logError] }) := by
  refine ⟨?_, ?_, ?_⟩
  · exact C1_backup_before_every_step.1 Nat (fun _ => true) (fun _ n => some n)
      0 1 0 1 (by decide)
  · have h := C1_backup_before_every_step.2.1 Nat (fun _ => false) (fun _ n => some n)
      0 1 0 0 (by decide)
    exact ⟨h.1, h.2.1⟩
  · obtain ⟨argOf, hspec⟩ := C1_backup_before_every_step.2.2
      addVersionToTvEpisodes_execute (by simp [dbUpgradeExecutes, dbMigrations])
    have h := (hspec envNoBackup 0 sTooNew).1 rfl
    simpa [sTooNew] using h

/-! ### C3 — the sanity checks are *not* independently wrapped -/

/-- **C3, counterexample.**  `MainSanityCheck.check` has no per-check
exception handling: with the engine failing on the very first call (inside
`fix_missing_table_indexes`), `check` propagates the error with the store
untouched — in particular `clean_null_indexer_mappings`, the last check,
never runs and the null mapping it would have deleted survives (second
conjunct), although the same store under a non-failing engine ends with
the mapping removed (third conjunct).  So a failure in one check does
prevent later checks from running, and is fatal to `check` itself. -/
theorem C3_counterexample :
    check envFail0 0 sNullMapping = .error (.exc 1 sNullMapping) ∧
    sNullMapping.indexer_mapping ≠ [] ∧
    (∃ n2 s2, check envOk 0 sNullMapping = .ok ((), n2, s2) ∧
      s2.indexer_mapping = []) := by
  refine ⟨rfl, by decide, 17, _, rfl, rfl⟩

/-- **C3, amended.**  The twelve checks run in a fixed sequence with no
individual wrapping: an exception raised in `fix_missing_table_indexes`
(the first check) is returned by `check` itself, unhandled — so no later
check runs; likewise an exception in `fix_duplicate_shows` after a clean
first check aborts the remaining ten. -/
theorem C3_first_failure_aborts_check :
    (∀ env n s h, fix_missing_table_indexes env n s = .error h →
      check env n s = .error h) ∧
    (∀ env n s n2 s2 h, fix_missing_table_indexes env n s = .ok ((), n2, s2) →
      fix_duplicate_shows env n2 s2 = .error h →
      check env n s = .error h) := by
  constructor
  · intro env n s h hfix
    show DbM.bind fix_missing_table_indexes _ env n s = .error h
    unfold DbM.bind
    rw [hfix]
  · intro env n s n2 s2 h hfix hdup
    show DbM.bind fix_missing_table_indexes _ env n s = .error h
    unfold DbM.bind
    rw [hfix]
    show DbM.bind fix_duplicate_shows _ env n2 s2 = .error h
    unfold DbM.bind
    rw [hdup]

/-- **C3, witness** for the amended theorem: the first check fails on the
concrete store and `check` returns exactly that error. -/
theorem C3_first_failure_aborts_check_witness :
    check envFail0 0 sNullMapping = .error (.exc 1 sNullMapping) :=
  C3_first_failure_aborts_check.1 envFail0 0 sNullMapping (.exc 1 sNullMapping) rfl

/-! ### C4 — the metadata-format step (`_migrate_v5`) -/

/-- **C4, counterexample.**  The claim says the fanart/poster slot swap is
applied *conditionally on the legacy banner boolean flag*.  In the code the
indices-2/3 swap is unconditional: with the banner flag `false` (and a
non-XBMC name) the input `1|2|3|4|5|6` still comes out with slots 3 and 4
swapped (`1|2|4|3|…`), not in the claimed unswapped layout (`1|2|3|4|…`). -/
theorem C4_counterexample :
    (migrate_metadata "1|2|3|4|5|6" "PS3" false).1 = "1|2|4|3|0|5|6|0|0|0" ∧
    (migrate_metadata "1|2|3|4|5|6" "PS3" false).1 ≠ "1|2|3|4|0|5|6|0|0|0" := by
  constructor
  · rfl
  · decide

/-- **C4, amended.**  `_migrate_metadata` on a 6-slot value inserts a zero
slot at index 4 and appends three zero slots, *always* swaps the fanart
and poster slots (indices 2 and 3), and only for the metadata name
`'XBMC'` with the banner flag set additionally moves the poster value into
the banner slot and zeroes the poster slot; a 10-slot value passes through
unchanged; any other slot count is replaced by the all-zero 10-slot
default, and an error is logged. -/
theorem C4_metadata_upgrade (m name : String) (banner : Bool) :
    (∀ a b c d e f, pySplit '|' m = [a, b, c, d, e, f] →
      migrate_metadata m name banner =
        ((if name = "XBMC" ∧ banner then pyJoin '|' [a, b, d, "0", c, e, f, "0", "0", "0"]
          else pyJoin '|' [a, b, d, c, "0", e, f, "0", "0", "0"]), [.info, .info])) ∧
    ((pySplit '|' m).length = 10 → migrate_metadata m name banner = (m, [.info])) ∧
    ((pySplit '|' m).length ≠ 6 → (pySplit '|' m).length ≠ 10 →
      migrate_metadata m name banner = (metadataZeroDefault, [.error, .info])) := by
  refine ⟨?_, ?_, ?_⟩
  · intro a b c d e f h
    by_cases hx : name = "XBMC" ∧ banner
    · simp [migrate_metadata, h, hx]
    · simp [migrate_metadata, h, hx]
  · intro h10
    have h6 : ¬ (pySplit '|' m).length = 6 := by rw [h10]; decide
    rw [show migrate_metadata m name banner =
      (pyJoin '|' (pySplit '|' m), [LogLevel.info]) from by
        simp [migrate_metadata, h6, h10]]
    rw [pyJoin_pySplit]
  · intro h6 h10
    simp [migrate_metadata, h6, h10]

/-- **C4, witness** for the amended theorem: all three branches at
concrete inputs. -/
theorem C4_metadata_upgrade_witness :
    migrate_metadata "1|2|3|4|5|6" "XBMC" true = ("1|2|4|0|3|5|6|0|0|0", [.info, .info]) ∧
    migrate_metadata "9|8|7|6|5|4|3|2|1|0" "XBMC" true = ("9|8|7|6|5|4|3|2|1|0", [.info]) ∧
    migrate_metadata "1|2" "WDTV" false = ("0|0|0|0|0|0|0|0|0|0", [.error, .info]) := by
  refine ⟨?_, ?_, ?_⟩
  · have h := (C4_metadata_upgrade "1|2|3|4|5|6" "XBMC" true).1 "1" "2" "3" "4" "5" "6"
      (by decide)
    rw [h]; decide
  · have h := (C4_metadata_upgrade "9|8|7|6|5|4|3|2|1|0" "XBMC" true).2.1 (by decide)
    exact h
  · have h := (C4_metadata_upgrade "1|2" "WDTV" false).2.2 (by decide) (by decide)
    exact h

/-! ### C6 — malformed legacy records inside a step -/

/-- **C6.**  `_migrate_v4` does skip a malformed newznab descriptor and keep
processing (second conjunct), but `make_rss_torrent_provider`'s
`except ValueError` does not catch the `IndexError` raised by
`values[4]` on a 4-field descriptor: the record `"A|url1|k|1"` aborts the
whole version step instead of being logged and skipped (first conjunct
evaluates the code at the failing input). -/
theorem C6_malformed_record_aborts :
    make_rss_torrent_provider "A|url1|k|1" = .error () ∧
    migrate_v4 "good|url|key|1!!!bad!!!NZBs.org|u|k|0" =
      some "good|url|key|5030,5040,5060|1!!!NZBs.org|u|k|5030,5040,5060,5070,5090|0" := by
  exact ⟨rfl, rfl⟩

/-! ### C5 — provider deduplication -/

/-- **C5, counterexample.**  On the claim's own example input
`"A|url1|k|1!!!A|url2|k|1"` the migration does not yield one provider
named `A`: parsing the first 4-field descriptor raises an uncaught
`IndexError` and the whole call aborts. -/
theorem C5_counterexample :
    get_rss_torrent_providers_list "A|url1|k|1!!!A|url2|k|1" = .error () := by
  rfl

/-- The dedup loop of `get_rss_torrent_providers_list`, generalized over
the accumulator: the seen-set is exactly the names of the accumulator, the
result names are duplicate-free, and an element is in the result iff it
was already accumulated or it is the *first* pending provider with its
name. -/
theorem dedupByNameLoop_invariant :
    ∀ (ps acc : List TorrentRssProvider),
      ((acc.map (fun p => p.name)).Nodup) →
      (((dedupByNameLoop ps (acc.map (fun p => p.name)) acc).map
          (fun p => p.name)).Nodup ∧
        (∀ p, p ∈ dedupByNameLoop ps (acc.map (fun p => p.name)) acc ↔
          (p ∈ acc ∨ (p.name ∉ acc.map (fun q => q.name) ∧
            ps.find? (fun q => q.name = p.name) = some p)))) := by
  intro ps
  induction ps with
  | nil =>
    intro acc hnd
    refine ⟨hnd, ?_⟩
    intro p
    simp [dedupByNameLoop]
  | cons p0 ps ih =>
    intro acc hnd
    by_cases hmem : p0.name ∈ acc.map (fun q => q.name)
    · have hred : dedupByNameLoop (p0 :: ps) (acc.map (fun p => p.name)) acc
          = dedupByNameLoop ps (acc.map (fun p => p.name)) acc := by
        simp [dedupByNameLoop, hmem]
      obtain ⟨ihn, ihm⟩ := ih acc hnd
      rw [hred]
      refine ⟨ihn, ?_⟩
      intro p
      rw [ihm p]
      constructor
      · rintro (h | ⟨hn, hf⟩)
        · exact Or.inl h
        · refine Or.inr ⟨hn, ?_⟩
          have hne : ¬ (decide (p0.name = p.name) = true) := by
            simp only [decide_eq_true_eq]
            intro he
            exact hn (he ▸ hmem)
          rw [List.find?_cons_of_neg _ (by simpa using hne)]
          exact hf
      · rintro (h | ⟨hn, hf⟩)
        · exact Or.inl h
        · refine Or.inr ⟨hn, ?_⟩
          have hne : ¬ (decide (p0.name = p.name) = true) := by
            simp only [decide_eq_true_eq]
            intro he
            exact hn (he ▸ hmem)
          rwa [List.find?_cons_of_neg _ (by simpa using hne)] at hf
    · have hred : dedupByNameLoop (p0 :: ps) (acc.map (fun p => p.name)) acc
          = dedupByNameLoop ps ((acc ++ [p0]).map (fun p => p.name)) (acc ++ [p0]) := by
        simp [dedupByNameLoop, hmem]
      have hnd2 : (((acc ++ [p0]).map (fun p => p.name)).Nodup) := by
        rw [List.map_append]
        simp only [List.nodup_append, List.map]
        exact ⟨hnd, List.nodup_singleton _,
          by simpa [List.disjoint_right] using fun h => hmem h⟩
      obtain ⟨ihn, ihm⟩ := ih (acc ++ [p0]) hnd2
      rw [hred]
      refine ⟨ihn, ?_⟩
      intro p
      rw [ihm p]
      constructor
      · rintro (h | ⟨hn, hf⟩)
        · rcases List.mem_append.mp h with h | h
          · exact Or.inl h
          · rw [List.mem_singleton] at h
            subst h
            refine Or.inr ⟨hmem, ?_⟩
            rw [List.find?_cons_of_pos _ (by simp)]
        · rw [List.map_append] at hn
          simp only [List.mem_append, List.map, List.mem_singleton, not_or] at hn
          refine Or.inr ⟨hn.1, ?_⟩
          have hne : ¬ (decide (p0.name = p.name) = true) := by
            simp only [decide_eq_true_eq]
            intro he
            exact hn.2 he.symm
          rw [List.find?_cons_of_neg _ (by simpa using hne)]
          exact hf
      · rintro (h | ⟨hn, hf⟩)
        · exact Or.inl (List.mem_append.mpr (Or.inl h))
        · by_cases he : p0.name = p.name
          · rw [List.find?_cons_of_pos _ (by simpa using he)] at hf
            have : p0 = p := by injection hf
            subst this
            exact Or.inl (List.mem_append.mpr (Or.inr (List.mem_singleton.mpr rfl)))
          · rw [List.find?_cons_of_neg _ (by simpa using he)] at hf
            refine Or.inr ⟨?_, hf⟩
            rw [List.map_append]
            simp only [List.mem_append, List.map, List.mem_singleton, not_or]
            exact ⟨hn, fun h => he h.symm⟩

/-- **C5, amended.**  Whenever every descriptor of the bang-delimited list
parses (no `IndexError`), `get_rss_torrent_providers_list` deduplicates by
name with first-occurrence-wins semantics: the result is the dedup loop
over the parsed providers, its names are pairwise distinct, and a provider
is in the result iff it is the *first* parsed provider bearing its name
(so later duplicates are dropped silently). -/
theorem C5_dedup_first_wins (data : String) (pl : List TorrentRssProvider)
    (h : providersListOf data = .ok pl) :
    get_rss_torrent_providers_list data = .ok (dedupByNameLoop pl [] []) ∧
    ((dedupByNameLoop pl [] []).map (fun p => p.name)).Nodup ∧
    (∀ p, p ∈ dedupByNameLoop pl [] [] ↔
      pl.find? (fun q => q.name = p.name) = some p) := by
  have hinv := dedupByNameLoop_invariant pl []
  simp only [List.map, List.nodup_nil, List.not_mem_nil, false_or, forall_const,
    true_implies] at hinv
  refine ⟨?_, hinv.1, ?_⟩
  · unfold get_rss_torrent_providers_list
    rw [h]
    rfl
  · intro p
    rw [hinv.2 p]
    simp

/-- **C5, witness**: a 9-field duplicate-name list parses and keeps exactly
the first `A`. -/
theorem C5_dedup_first_wins_witness :
    get_rss_torrent_providers_list dupProviderData =
      .ok [⟨"A", "u1", "c", "t", "eponly", "0", "0", "0", "0", true⟩] := by
  have h := (C5_dedup_first_wins dupProviderData
    [⟨"A", "u1", "c", "t", "eponly", "0", "0", "0", "0", true⟩,
     ⟨"A", "u2", "c", "t", "eponly", "0", "1", "0", "0", false⟩] rfl).1
  exact h.trans (by rfl)

/-! ### C7 — duplicate-entity repair: sort/grouping lemmas -/

theorem insertDesc_perm (x : Nat) (l : List Nat) : List.Perm (insertDesc x l) (x :: l) := by
  induction l with
  | nil => exact List.Perm.refl _
  | cons y ys ih =>
    unfold insertDesc
    by_cases h : y ≤ x
    · rw [if_pos h]
    · rw [if_neg h]
      exact (ih.cons y).trans (List.Perm.swap x y ys)

theorem sortDesc_perm (l : List Nat) : List.Perm (sortDesc l) l := by
  induction l with
  | nil => exact List.Perm.refl _
  | cons x xs ih =>
    unfold sortDesc
    exact (insertDesc_perm x (sortDesc xs)).trans (ih.cons x)

theorem insertDesc_pairwise (x : Nat) (l : List Nat)
    (h : l.Pairwise (fun a b => b ≤ a)) :
    (insertDesc x l).Pairwise (fun a b => b ≤ a) := by
  induction l with
  | nil => simp [insertDesc]
  | cons y ys ih =>
    rw [List.pairwise_cons] at h
    unfold insertDesc
    by_cases hxy : y ≤ x
    · rw [if_pos hxy]
      refine List.Pairwise.cons ?_ (List.Pairwise.cons h.1 h.2)
      intro b hb
      rcases List.mem_cons.mp hb with hb | hb
      · exact hb ▸ hxy
      · exact le_trans (h.1 b hb) hxy
    · rw [if_neg hxy]
      refine List.Pairwise.cons ?_ (ih h.2)
      intro b hb
      have hb2 := (insertDesc_perm x ys).mem_iff.mp hb
      rcases List.mem_cons.mp hb2 with hb3 | hb3
      · exact hb3 ▸ le_of_lt (lt_of_not_le hxy)
      · exact h.1 b hb3

theorem sortDesc_pairwise (l : List Nat) :
    (sortDesc l).Pairwise (fun a b => b ≤ a) := by
  induction l with
  | nil => simp [sortDesc]
  | cons x xs ih => exact insertDesc_pairwise x (sortDesc xs) ih

/-- In a descending, duplicate-free list, the element *not* kept by
`take (length - 1)` is exactly the minimum. -/
theorem sorted_take_all_but_last (l : List Nat)
    (hp : l.Pairwise (fun a b => b ≤ a)) (hnd : l.Nodup) (a : Nat) (ha : a ∈ l) :
    (a ∉ l.take (l.length - 1)) ↔ ∀ b ∈ l, a ≤ b := by
  induction l with
  | nil => cases ha
  | cons x t iht =>
    cases t with
    | nil =>
      rw [List.mem_singleton] at ha
      subst ha
      simp
    | cons y ts =>
      rw [List.pairwise_cons] at hp
      rw [List.nodup_cons] at hnd
      have hlen : (x :: y :: ts).length - 1 = (y :: ts).length := by simp
      rw [hlen, show (y :: ts).length = ts.length + 1 from rfl, List.take_succ_cons]
      rcases List.mem_cons.mp ha with hax | hat
      · constructor
        · intro hmem
          exfalso
          apply hmem
          rw [hax]
          exact List.mem_cons_self x _
        · intro hall
          exfalso
          have h1 : a ≤ y := hall y (by simp)
          have h2 : y ≤ x := hp.1 y (List.mem_cons_self y ts)
          have h3 : x = y := le_antisymm (hax ▸ h1) h2
          apply hnd.1
          rw [h3]
          exact List.mem_cons_self y ts
      · have hax : a ≠ x := by
          intro he; exact hnd.1 (he ▸ hat)
        have hrest := iht hp.2 hnd.2 hat
        constructor
        · intro hmem
          have h1 : a ∉ (y :: ts).take ((y :: ts).length - 1) := by
            intro hc
            exact hmem (List.mem_cons.mpr (Or.inr hc))
          intro b hb
          rcases List.mem_cons.mp hb with hb | hb
          · exact hb ▸ hp.1 a hat
          · exact hrest.mp h1 b hb
        · intro hall hmem
          rcases List.mem_cons.mp hmem with h | h
          · exact hax h
          · have h2 : a ∉ (y :: ts).take ((y :: ts).length - 1) := hrest.mpr
              (fun b hb => hall b (List.mem_cons.mpr (Or.inr hb)))
            exact h2 h

theorem mem_take_sortDesc (l : List Nat) (hnd : l.Nodup) (a : Nat) (ha : a ∈ l) :
    (a ∉ (sortDesc l).take (l.length - 1)) ↔ ∀ b ∈ l, a ≤ b := by
  have hperm := sortDesc_perm l
  rw [show l.length = (sortDesc l).length from hperm.length_eq.symm]
  rw [sorted_take_all_but_last (sortDesc l) (sortDesc_pairwise l)
    (hperm.nodup_iff.mpr hnd) a (hperm.mem_iff.mpr ha)]
  constructor
  · intro h b hb; exact h b (hperm.mem_iff.mpr hb)
  · intro h b hb; exact h b (hperm.mem_iff.mp hb)

theorem mem_firstOccs [DecidableEq κ] : ∀ (l : List κ) (k : κ),
    k ∈ firstOccs l ↔ k ∈ l := by
  intro l
  induction l with
  | nil => intro k; simp [firstOccs]
  | cons a t ih =>
    intro k
    unfold firstOccs
    by_cases hk : k = a
    · subst hk; simp
    · simp only [List.mem_cons, List.mem_filter, ih, decide_eq_true_eq]
      constructor
      · rintro (h | ⟨h, _⟩)
        · exact Or.inl h
        · exact Or.inr h
      · rintro (h | h)
        · exact Or.inl h
        · exact Or.inr ⟨h, by simpa using hk⟩

theorem firstOccs_nodup [DecidableEq κ] : ∀ (l : List κ), (firstOccs l).Nodup := by
  intro l
  induction l with
  | nil => simp [firstOccs]
  | cons a t ih =>
    unfold firstOccs
    rw [List.nodup_cons]
    constructor
    · intro h
      have := (List.mem_filter.mp h).2
      simp at this
    · exact List.Nodup.filter _ ih

/-- `filter` on a projection commutes with `map`. -/
theorem filter_proj_map (f : α → β) (p : β → Bool) : ∀ (l : List α),
    (l.filter (fun a => p (f a))).map f = (l.map f).filter p := by
  intro l
  induction l with
  | nil => rfl
  | cons a t ih =>
    by_cases h : p (f a) <;> simp [h, ih]

/-- Filtering a duplicate-free list by membership in a duplicate-free
subset keeps exactly that subset's length. -/
theorem length_filter_mem_of_nodup (ids v : List Nat) (hi : ids.Nodup)
    (hv : v.Nodup) (hsub : ∀ a ∈ v, a ∈ ids) :
    (ids.filter (fun a => a ∈ v)).length = v.length := by
  have hperm : List.Perm (ids.filter (fun a => a ∈ v)) v := by
    rw [List.perm_ext_iff_of_nodup (List.Nodup.filter _ hi) hv]
    intro a
    simp only [List.mem_filter, decide_eq_true_eq]
    exact ⟨fun h => h.2, fun h => ⟨hsub a h, h⟩⟩
  exact hperm.length_eq

theorem dbSelect_ok (f : DbEnv → DbState → α) (env : DbEnv) (n : Nat) (s : DbState)
    (h : env.failAt n = false) :
    dbSelect f env n s = .ok (f env s, n + 1, s) := by
  simp [dbSelect, bind_def, pure_def, DbM.bind, DbM.pure, tick, h, readEnv, getS]

theorem dbAction_ok (stmt : String) (f : DbState → DbState) (env : DbEnv) (n : Nat)
    (s : DbState) (h : env.failAt n = false) :
    dbAction stmt f env n s =
      .ok ((), n + 1, { f s with events := (f s).events ++ [DbEvent.sql stmt] }) := by
  simp [dbAction, bind_def, DbM.bind, tick, h, modifyS]

theorem mFor_nil_run (f : α → DbM Unit) (env : DbEnv) (n : Nat) (s : DbState) :
    mFor [] f env n s = .ok ((), n, s) := rfl

theorem mFor_cons_ok (f : α → DbM Unit) (a : α) (l : List α) (env : DbEnv)
    (n n2 : Nat) (s s2 : DbState) (h : f a env n s = .ok ((), n2, s2)) :
    mFor (a :: l) f env n s = mFor l f env n2 s2 := by
  show DbM.bind (f a) (fun _ => mFor l f) env n s = _
  simp only [DbM.bind, h]

/-- The inner delete loop of `fix_duplicate_episodes`: under a non-failing
engine it deletes exactly the rows whose `episode_id` is listed. -/
theorem eps_delete_loop (env : DbEnv) (hfail : ∀ m, env.failAt m = false) :
    ∀ (ids : List Nat) (n : Nat) (s : DbState),
      ∃ evs, mFor ids (fun eid =>
          dbAction "DELETE FROM tv_episodes WHERE episode_id = ?"
            (fun s => { s with tv_episodes := (s.tv_episodes.filter
              (fun r => ¬ r.episode_id = eid)) })) env n s
        = .ok ((), n + ids.length, { s with
            tv_episodes := s.tv_episodes.filter (fun r => ¬ r.episode_id ∈ ids),
            events := s.events ++ evs }) := by
  intro ids
  induction ids with
  | nil =>
    intro n s
    refine ⟨[], ?_⟩
    rw [mFor_nil_run]
    have h1 : s.tv_episodes.filter (fun r => ¬ r.episode_id ∈ ([] : List Nat))
        = s.tv_episodes := by
      apply List.filter_eq_self.mpr
      intro a _
      simp
    rw [h1]
    simp
  | cons i it ih =>
    intro n s
    have hact : dbAction "DELETE FROM tv_episodes WHERE episode_id = ?"
        (fun s => { s with tv_episodes := (s.tv_episodes.filter
          (fun r => ¬ r.episode_id = i)) }) env n s
      = .ok ((), n + 1,
          { s with
            tv_episodes := (s.tv_episodes.filter (fun r => ¬ r.episode_id = i)),
            events := (s.events ++ [DbEvent.sql "DELETE FROM tv_episodes WHERE episode_id = ?"]) }) :=
      dbAction_ok _ _ env n s (hfail n)
    obtain ⟨evs, hih⟩ := ih (n + 1)
      { s with
        tv_episodes := (s.tv_episodes.filter (fun r => ¬ r.episode_id = i)),
        events := (s.events ++ [DbEvent.sql "DELETE FROM tv_episodes WHERE episode_id = ?"]) }
    refine ⟨DbEvent.sql "DELETE FROM tv_episodes WHERE episode_id = ?" :: evs, ?_⟩
    rw [mFor_cons_ok (fun eid =>
        dbAction "DELETE FROM tv_episodes WHERE episode_id = ?"
          (fun s => { s with tv_episodes := (s.tv_episodes.filter
            (fun r => ¬ r.episode_id = eid)) })) i it env n (n + 1) s _ hact, hih]
    have hfilter : (s.tv_episodes.filter (fun r => ¬ r.episode_id = i)).filter
        (fun r => ¬ r.episode_id ∈ it)
        = s.tv_episodes.filter (fun r => ¬ r.episode_id ∈ (i :: it)) := by
      rw [List.filter_filter]
      apply List.filter_congr
      intro r _
      by_cases h1 : r.episode_id = i <;> by_cases h2 : r.episode_id ∈ it <;>
        simp [h1, h2]
    dsimp only
    rw [hfilter]
    simp only [Except.ok.injEq, Prod.mk.injEq, DbState.mk.injEq, List.append_assoc,
      List.singleton_append, List.length_cons]
    repeat' apply And.intro
    all_goals first | rfl | omega | trivial

/-- The inner delete loop of `fix_duplicate_shows`: under a non-failing
engine it deletes exactly the rows whose `show_id` is listed. -/
theorem shows_delete_loop (env : DbEnv) (hfail : ∀ m, env.failAt m = false) :
    ∀ (ids : List Nat) (n : Nat) (s : DbState),
      ∃ evs, mFor ids (fun sid =>
          dbAction "DELETE FROM tv_shows WHERE show_id = ?"
            (fun s => { s with tv_shows := (s.tv_shows.filter
              (fun r => ¬ r.show_id = sid)) })) env n s
        = .ok ((), n + ids.length, { s with
            tv_shows := s.tv_shows.filter (fun r => ¬ r.show_id ∈ ids),
            events := s.events ++ evs }) := by
  intro ids
  induction ids with
  | nil =>
    intro n s
    refine ⟨[], ?_⟩
    rw [mFor_nil_run]
    have h1 : s.tv_shows.filter (fun r => ¬ r.show_id ∈ ([] : List Nat))
        = s.tv_shows := by
      apply List.filter_eq_self.mpr
      intro a _
      simp
    rw [h1]
    simp
  | cons i it ih =>
    intro n s
    have hact : dbAction "DELETE FROM tv_shows WHERE show_id = ?"
        (fun s => { s with tv_shows := (s.tv_shows.filter
          (fun r => ¬ r.show_id = i)) }) env n s
      = .ok ((), n + 1,
          { s with
            tv_shows := (s.tv_shows.filter (fun r => ¬ r.show_id = i)),
            events := (s.events ++ [DbEvent.sql "DELETE FROM tv_shows WHERE show_id = ?"]) }) :=
      dbAction_ok _ _ env n s (hfail n)
    obtain ⟨evs, hih⟩ := ih (n + 1)
      { s with
        tv_shows := (s.tv_shows.filter (fun r => ¬ r.show_id = i)),
        events := (s.events ++ [DbEvent.sql "DELETE FROM tv_shows WHERE show_id = ?"]) }
    refine ⟨DbEvent.sql "DELETE FROM tv_shows WHERE show_id = ?" :: evs, ?_⟩
    rw [mFor_cons_ok (fun sid =>
        dbAction "DELETE FROM tv_shows WHERE show_id = ?"
          (fun s => { s with tv_shows := (s.tv_shows.filter
            (fun r => ¬ r.show_id = sid)) })) i it env n (n + 1) s _ hact, hih]
    have hfilter : (s.tv_shows.filter (fun r => ¬ r.show_id = i)).filter
        (fun r => ¬ r.show_id ∈ it)
        = s.tv_shows.filter (fun r => ¬ r.show_id ∈ (i :: it)) := by
      rw [List.filter_filter]
      apply List.filter_congr
      intro r _
      by_cases h1 : r.show_id = i <;> by_cases h2 : r.show_id ∈ it <;>
        simp [h1, h2]
    dsimp only
    rw [hfilter]
    simp only [Except.ok.injEq, Prod.mk.injEq, DbState.mk.injEq, List.append_assoc,
      List.singleton_append, List.length_cons]
    repeat' apply And.intro
    all_goals first | rfl | omega | trivial

theorem groupCounts_mem [DecidableEq κ] (l : List κ) (g : κ × Nat)
    (hg : g ∈ groupCounts l) :
    g.1 ∈ l ∧ g.2 = (l.filter (fun x => x = g.1)).length := by
  unfold groupCounts at hg
  obtain ⟨k, hk, he⟩ := List.mem_map.mp hg
  cases he
  exact ⟨(mem_firstOccs l k).mp hk, rfl⟩

theorem groupCounts_keys_nodup [DecidableEq κ] (l : List κ) :
    ((groupCounts l).map Prod.fst).Nodup := by
  unfold groupCounts
  rw [List.map_map]
  have h1 : (Prod.fst ∘ fun k => (k, (l.filter (fun x => x = k)).length)) = id := rfl
  rw [h1, List.map_id]
  exact firstOccs_nodup l

theorem mem_groupCounts_of_mem [DecidableEq κ] (l : List κ) (k : κ) (hk : k ∈ l) :
    (k, (l.filter (fun x => x = k)).length) ∈ groupCounts l := by
  unfold groupCounts
  exact List.mem_map.mpr ⟨k, (mem_firstOccs l k).mpr hk, rfl⟩

/-- Removing only elements on which the test is vacuously true does not
change `List.all`. -/
theorem all_filter_of_dropped (l : List α) (p f : α → Bool)
    (h : ∀ a ∈ l, p a = false → f a = true) :
    (l.filter p).all f = l.all f := by
  induction l with
  | nil => rfl
  | cons a t ih =>
    have ht : ∀ b ∈ t, p b = false → f b = true :=
      fun b hb => h b (List.mem_cons.mpr (Or.inr hb))
    by_cases hp : p a = true
    · simp [List.filter_cons, hp, List.all_cons, ih ht]
    · have hfa := h a (List.mem_cons_self a t) (by simpa using hp)
      simp [List.filter_cons, hp, List.all_cons, ih ht, hfa]

/-- Deleting victims that all belong to the duplicate group `g` leaves
every other episode key class untouched. -/
theorem eps_filter_delete_other_key (rows : List EpRow)
    (hnd : (rows.map (fun r => r.episode_id)).Nodup)
    (victims : List Nat) (g : Int × Int × Int)
    (hv : ∀ v ∈ victims, v ∈ (rows.filter (fun r => epKey r = g)).map (fun r => r.episode_id))
    (k : Int × Int × Int) (hk : ¬ k = g) :
    (rows.filter (fun r => ¬ r.episode_id ∈ victims)).filter (fun r => epKey r = k)
      = rows.filter (fun r => epKey r = k) := by
  rw [List.filter_filter]
  apply List.filter_congr
  intro r hr
  by_cases hkey : epKey r = k
  · have hnotv : ¬ r.episode_id ∈ victims := by
      intro hv2
      obtain ⟨r2, hr2m, hr2id⟩ := List.mem_map.mp (hv _ hv2)
      have hr2 := List.mem_filter.mp hr2m
      have he : r2 = r := List.inj_on_of_nodup_map hnd hr2.1 hr hr2id
      have hg2 : epKey r2 = g := by simpa using hr2.2
      rw [he, hkey] at hg2
      exact hk hg2
    simp [hkey, hnotv]
  · simp [hkey]

/-- Deleting victims that all belong to the duplicate group `g` leaves
every other show group untouched. -/
theorem shows_filter_delete_other_key (rows : List ShowRow)
    (hnd : (rows.map (fun r => r.show_id)).Nodup)
    (victims : List Nat) (g : Int)
    (hv : ∀ v ∈ victims, v ∈ (rows.filter (fun r => r.indexer_id = g)).map (fun r => r.show_id))
    (k : Int) (hk : ¬ k = g) :
    (rows.filter (fun r => ¬ r.show_id ∈ victims)).filter (fun r => r.indexer_id = k)
      = rows.filter (fun r => r.indexer_id = k) := by
  rw [List.filter_filter]
  apply List.filter_congr
  intro r hr
  by_cases hkey : r.indexer_id = k
  · have hnotv : ¬ r.show_id ∈ victims := by
      intro hv2
      obtain ⟨r2, hr2m, hr2id⟩ := List.mem_map.mp (hv _ hv2)
      have hr2 := List.mem_filter.mp hr2m
      have he : r2 = r := List.inj_on_of_nodup_map hnd hr2.1 hr hr2id
      have hg2 : r2.indexer_id = g := by simpa using hr2.2
      rw [he, hkey] at hg2
      exact hk hg2
    simp [hkey, hnotv]
  · simp [hkey]

theorem bind_run_ok (x : DbM α) (f : α → DbM β) (env : DbEnv) (n : Nat) (s : DbState)
    (a : α) (n2 : Nat) (s2 : DbState) (h : x env n s = .ok (a, n2, s2)) :
    DbM.bind x f env n s = f a env n2 s2 := by
  simp only [DbM.bind, h]

/-- One pass of the `fix_duplicate_episodes` group loop: select the
`COUNT-1` largest `episode_id`s of the group and delete them, keeping the
minimum of the class and touching no other class. -/
theorem eps_group_step (env : DbEnv) (hfail : ∀ m, env.failAt m = false)
    (g : (Int × Int × Int) × Nat) (n : Nat) (s : DbState)
    (hnd : (s.tv_episodes.map (fun r => r.episode_id)).Nodup)
    (hc : (s.tv_episodes.filter (fun r => epKey r = g.1)).length = g.2) :
    ∃ evs, DbM.bind (dbSelect (fun _ s =>
        (sortDesc ((s.tv_episodes.filter (fun r => epKey r = g.1)).map
          (fun r => r.episode_id))).take (g.2 - 1)))
      (fun victims => mFor victims (fun eid =>
        dbAction "DELETE FROM tv_episodes WHERE episode_id = ?"
          (fun s => { s with tv_episodes := (s.tv_episodes.filter
            (fun r => ¬ r.episode_id = eid)) }))) env n s
    = .ok ((), n + 1 + (g.2 - 1),
        { s with
          tv_episodes := (s.tv_episodes.filter
            (fun r => ¬ epKey r = g.1 ∨ isMinForKey s.tv_episodes r)),
          events := (s.events ++ evs) }) := by
  set vs := (sortDesc ((s.tv_episodes.filter (fun r => epKey r = g.1)).map
    (fun r => r.episode_id))).take (g.2 - 1) with hvs
  have hsel : dbSelect (fun _ s =>
      (sortDesc ((s.tv_episodes.filter (fun r => epKey r = g.1)).map
        (fun r => r.episode_id))).take (g.2 - 1)) env n s = .ok (vs, n + 1, s) :=
    dbSelect_ok _ env n s (hfail n)
  obtain ⟨evs, hdel⟩ := eps_delete_loop env hfail vs (n + 1) s
  refine ⟨evs, (bind_run_ok _ _ env n s vs (n + 1) s hsel).trans (hdel.trans ?_)⟩
  have hlen : vs.length = g.2 - 1 := by
    have h1 : (sortDesc ((s.tv_episodes.filter (fun r => epKey r = g.1)).map
        (fun r => r.episode_id))).length = g.2 := by
      rw [(sortDesc_perm _).length_eq, List.length_map]
      exact hc
    rw [hvs, List.length_take, h1]
    omega
  have hfilter : s.tv_episodes.filter (fun r => ¬ r.episode_id ∈ vs)
      = s.tv_episodes.filter (fun r => ¬ epKey r = g.1 ∨ isMinForKey s.tv_episodes r) := by
    apply List.filter_congr
    intro r hr
    by_cases hkg : epKey r = g.1
    · have hrm : r ∈ s.tv_episodes.filter (fun x => epKey x = g.1) :=
        List.mem_filter.mpr ⟨hr, by simp [hkg]⟩
      have hidm : r.episode_id ∈ (s.tv_episodes.filter (fun x => epKey x = g.1)).map
          (fun x => x.episode_id) := List.mem_map.mpr ⟨r, hrm, rfl⟩
      have hids_nd : ((s.tv_episodes.filter (fun x => epKey x = g.1)).map
          (fun x => x.episode_id)).Nodup :=
        List.Nodup.sublist (List.Sublist.map _ (List.filter_sublist _)) hnd
      have hlen2 : ((s.tv_episodes.filter (fun x => epKey x = g.1)).map
          (fun x => x.episode_id)).length = g.2 := by
        rw [List.length_map]
        exact hc
      have hF1 : (¬ r.episode_id ∈ vs) ↔
          (∀ b ∈ (s.tv_episodes.filter (fun x => epKey x = g.1)).map
            (fun x => x.episode_id), r.episode_id ≤ b) := by
        rw [hvs]
        conv_lhs => rw [← hlen2]
        exact mem_take_sortDesc _ hids_nd _ hidm
      have hmin : (∀ b ∈ (s.tv_episodes.filter (fun x => epKey x = g.1)).map
          (fun x => x.episode_id), r.episode_id ≤ b) ↔
          isMinForKey s.tv_episodes r = true := by
        unfold isMinForKey
        rw [List.all_eq_true]
        constructor
        · intro hall q hq
          by_cases hqk : epKey q = epKey r
          · have hqm : q.episode_id ∈ (s.tv_episodes.filter (fun x => epKey x = g.1)).map
                (fun x => x.episode_id) :=
              List.mem_map.mpr ⟨q, List.mem_filter.mpr ⟨hq, by simp [hqk, hkg]⟩, rfl⟩
            simp [hqk, hall _ hqm]
          · simp [hqk]
        · intro hall b hb
          obtain ⟨q, hqm, hqid⟩ := List.mem_map.mp hb
          have hq2 := List.mem_filter.mp hqm
          have hqk : epKey q = epKey r := by
            have hqg : epKey q = g.1 := by simpa using hq2.2
            rw [hqg, hkg]
          have hres := hall q hq2.1
          rw [if_pos hqk] at hres
          rw [← hqid]
          simpa using hres
      by_cases hA : r.episode_id ∈ vs
      · have hC0 : ¬ isMinForKey s.tv_episodes r = true := fun hcc =>
          (hF1.mpr (hmin.mpr hcc)) hA
        simp [hA, hkg, hC0]
      · have hC0 : isMinForKey s.tv_episodes r = true := hmin.mp (hF1.mp hA)
        simp [hA, hkg, hC0]
    · have hA : ¬ r.episode_id ∈ vs := by
        intro hmem
        have hsub : vs ⊆ sortDesc ((s.tv_episodes.filter (fun x => epKey x = g.1)).map
            (fun x => x.episode_id)) := by
          rw [hvs]
          exact List.take_subset _ _
        have hv2 : r.episode_id ∈ (s.tv_episodes.filter (fun x => epKey x = g.1)).map
            (fun x => x.episode_id) := (sortDesc_perm _).mem_iff.mp (hsub hmem)
        obtain ⟨r2, hr2m, hr2id⟩ := List.mem_map.mp hv2
        have hr2 := List.mem_filter.mp hr2m
        have he : r2 = r := List.inj_on_of_nodup_map hnd hr2.1 hr hr2id
        have hg2 : epKey r2 = g.1 := by simpa using hr2.2
        rw [he] at hg2
        exact hkg hg2
      simp [hA, hkg]
  rw [hfilter, hlen]

theorem length_filter_pos_neg (l : List α) (p : α → Bool) :
    (l.filter p).length + (l.filter (fun a => ! p a)).length = l.length := by
  induction l with
  | nil => rfl
  | cons a t ih =>
    by_cases h : p a = true <;> simp [List.filter_cons, h, ← ih] <;> omega

/-- One pass of the `fix_duplicate_shows` group loop: the engine hands the
group's rows back in an arbitrary order and the first `COUNT-1` ids are
deleted — some single row of the group survives, every other group is
untouched. -/
theorem shows_group_step (env : DbEnv) (hfail : ∀ m, env.failAt m = false)
    (hperm : ∀ l, List.Perm (env.shuffleShows l) l)
    (g : Int × Nat) (n : Nat) (s : DbState)
    (hnd : (s.tv_shows.map (fun r => r.show_id)).Nodup)
    (hc : (s.tv_shows.filter (fun r => r.indexer_id = g.1)).length = g.2)
    (hpos : 1 ≤ g.2) :
    ∃ evs shows2, DbM.bind (dbSelect (fun env s =>
        ((env.shuffleShows (s.tv_shows.filter (fun r => r.indexer_id = g.1))).map
          (fun r => r.show_id)).take (g.2 - 1)))
      (fun victims => mFor victims (fun sid =>
        dbAction "DELETE FROM tv_shows WHERE show_id = ?"
          (fun s => { s with tv_shows := (s.tv_shows.filter
            (fun r => ¬ r.show_id = sid)) }))) env n s
      = .ok ((), n + 1 + (g.2 - 1),
          { s with tv_shows := shows2, events := (s.events ++ evs) }) ∧
      List.Sublist shows2 s.tv_shows ∧
      (shows2.map (fun r => r.show_id)).Nodup ∧
      (shows2.filter (fun r => r.indexer_id = g.1)).length = 1 ∧
      (∀ k, ¬ k = g.1 → shows2.filter (fun r => r.indexer_id = k)
        = s.tv_shows.filter (fun r => r.indexer_id = k)) := by
  set vs := ((env.shuffleShows (s.tv_shows.filter (fun r => r.indexer_id = g.1))).map
    (fun r => r.show_id)).take (g.2 - 1) with hvs
  have hsel : dbSelect (fun env s =>
      ((env.shuffleShows (s.tv_shows.filter (fun r => r.indexer_id = g.1))).map
        (fun r => r.show_id)).take (g.2 - 1)) env n s = .ok (vs, n + 1, s) :=
    dbSelect_ok _ env n s (hfail n)
  obtain ⟨evs, hdel⟩ := shows_delete_loop env hfail vs (n + 1) s
  have hidsperm : List.Perm
      ((env.shuffleShows (s.tv_shows.filter (fun r => r.indexer_id = g.1))).map
        (fun r => r.show_id))
      ((s.tv_shows.filter (fun r => r.indexer_id = g.1)).map (fun r => r.show_id)) :=
    (hperm _).map _
  have hids_nd : ((s.tv_shows.filter (fun r => r.indexer_id = g.1)).map
      (fun r => r.show_id)).Nodup :=
    List.Nodup.sublist (List.Sublist.map _ (List.filter_sublist _)) hnd
  have hvs_nd : vs.Nodup := by
    rw [hvs]
    exact List.Nodup.sublist (List.take_sublist _ _) (hidsperm.nodup_iff.mpr hids_nd)
  have hvs_sub : ∀ v ∈ vs, v ∈ (s.tv_shows.filter (fun r => r.indexer_id = g.1)).map
      (fun r => r.show_id) := by
    intro v hv
    have h1 : v ∈ (env.shuffleShows (s.tv_shows.filter (fun r => r.indexer_id = g.1))).map
        (fun r => r.show_id) := by
      rw [hvs] at hv
      exact List.take_subset _ _ hv
    exact hidsperm.mem_iff.mp h1
  have hlen : vs.length = g.2 - 1 := by
    have h1 : ((env.shuffleShows (s.tv_shows.filter (fun r => r.indexer_id = g.1))).map
        (fun r => r.show_id)).length = g.2 := by
      rw [hidsperm.length_eq, List.length_map]
      exact hc
    rw [hvs, List.length_take, h1]
    omega
  refine ⟨evs, s.tv_shows.filter (fun r => ¬ r.show_id ∈ vs),
    (bind_run_ok _ _ env n s vs (n + 1) s hsel).trans (hdel.trans (by rw [hlen])),
    List.filter_sublist _,
    List.Nodup.sublist (List.Sublist.map _ (List.filter_sublist _)) hnd,
    ?_, ?_⟩
  · have hcomm : (s.tv_shows.filter (fun r => ¬ r.show_id ∈ vs)).filter
        (fun r => r.indexer_id = g.1)
        = (s.tv_shows.filter (fun r => r.indexer_id = g.1)).filter
          (fun r => ¬ r.show_id ∈ vs) := by
      rw [List.filter_filter, List.filter_filter]
      apply List.filter_congr
      intro r hr
      exact Bool.and_comm _ _
    have h2 : ((s.tv_shows.filter (fun r => r.indexer_id = g.1)).filter
        (fun r => r.show_id ∈ vs)).map (fun r => r.show_id)
        = ((s.tv_shows.filter (fun r => r.indexer_id = g.1)).map
          (fun r => r.show_id)).filter (fun b => b ∈ vs) :=
      filter_proj_map (fun r : ShowRow => r.show_id) (fun b => decide (b ∈ vs))
        (s.tv_shows.filter (fun r => r.indexer_id = g.1))
    have h3 := length_filter_mem_of_nodup ((s.tv_shows.filter
      (fun r => r.indexer_id = g.1)).map (fun r => r.show_id)) vs hids_nd hvs_nd hvs_sub
    have hproj : ((s.tv_shows.filter (fun r => r.indexer_id = g.1)).filter
        (fun r => r.show_id ∈ vs)).length = vs.length := by
      calc ((s.tv_shows.filter (fun r => r.indexer_id = g.1)).filter
            (fun r => r.show_id ∈ vs)).length
          = (((s.tv_shows.filter (fun r => r.indexer_id = g.1)).filter
            (fun r => r.show_id ∈ vs)).map (fun r => r.show_id)).length :=
            (List.length_map _ _).symm
        _ = (((s.tv_shows.filter (fun r => r.indexer_id = g.1)).map
            (fun r => r.show_id)).filter (fun b => b ∈ vs)).length := by rw [h2]
        _ = vs.length := h3
    have hsum : ((s.tv_shows.filter (fun r => r.indexer_id = g.1)).filter
          (fun r => r.show_id ∈ vs)).length
        + ((s.tv_shows.filter (fun r => r.indexer_id = g.1)).filter
          (fun r => ¬ r.show_id ∈ vs)).length
        = (s.tv_shows.filter (fun r => r.indexer_id = g.1)).length := by
      have h0 := length_filter_pos_neg (s.tv_shows.filter (fun r => r.indexer_id = g.1))
        (fun r => decide (r.show_id ∈ vs))
      have he : (s.tv_shows.filter (fun r => r.indexer_id = g.1)).filter
          (fun r => ¬ r.show_id ∈ vs)
          = (s.tv_shows.filter (fun r => r.indexer_id = g.1)).filter
            (fun a => ! (fun r => decide (r.show_id ∈ vs)) a) := by
        apply List.filter_congr
        intro r hr
        simp
      rw [he]
      exact h0
    rw [hc] at hsum
    rw [hcomm]
    omega
  · intro k hk
    exact shows_filter_delete_other_key s.tv_shows hnd vs g.1 hvs_sub k hk

/-- The group loop of `fix_duplicate_episodes`, over any duplicate-free
batch of key groups with correct multiplicities: what survives is exactly
the per-key minimum for the listed keys, everything else untouched. -/
theorem eps_groups_loop (env : DbEnv) (hfail : ∀ m, env.failAt m = false) :
    ∀ (ds : List ((Int × Int × Int) × Nat)) (n : Nat) (s : DbState),
      (s.tv_episodes.map (fun r => r.episode_id)).Nodup →
      (∀ g ∈ ds, (s.tv_episodes.filter (fun r => epKey r = g.1)).length = g.2) →
      ((ds.map Prod.fst).Nodup) →
      ∃ n2 evs, mFor ds (fun g => do
          let victims ← dbSelect (fun _ s =>
            (sortDesc ((s.tv_episodes.filter (fun r => epKey r = g.1)).map
              (fun r => r.episode_id))).take (g.2 - 1))
          mFor victims (fun eid =>
            dbAction "DELETE FROM tv_episodes WHERE episode_id = ?"
              (fun s => { s with tv_episodes := (s.tv_episodes.filter
                (fun r => ¬ r.episode_id = eid)) }))) env n s
        = .ok ((), n2, { s with
            tv_episodes := (s.tv_episodes.filter
              (fun r => ¬ epKey r ∈ ds.map Prod.fst ∨ isMinForKey s.tv_episodes r)),
            events := (s.events ++ evs) }) := by
  intro ds
  induction ds with
  | nil =>
    intro n s hnd hds hkeys
    refine ⟨n, [], ?_⟩
    rw [mFor_nil_run]
    have h1 : s.tv_episodes.filter
        (fun r => ¬ epKey r ∈ (([] : List ((Int × Int × Int) × Nat)).map Prod.fst)
          ∨ isMinForKey s.tv_episodes r) = s.tv_episodes := by
      apply List.filter_eq_self.mpr
      intro a _
      simp
    rw [h1]
    simp
  | cons g ds2 ih =>
    intro n s hnd hds hkeys
    have hg1notin : ¬ g.1 ∈ ds2.map Prod.fst := by
      have h2 : ((g :: ds2).map Prod.fst).Nodup := hkeys
      rw [List.map_cons, List.nodup_cons] at h2
      exact h2.1
    obtain ⟨evs1, hstep⟩ := eps_group_step env hfail g n s hnd
      (hds g (List.mem_cons_self g ds2))
    have hpres : ∀ k, ¬ k = g.1 →
        (s.tv_episodes.filter
          (fun x => ¬ epKey x = g.1 ∨ isMinForKey s.tv_episodes x)).filter
          (fun r => epKey r = k)
        = s.tv_episodes.filter (fun r => epKey r = k) := by
      intro k hk
      rw [List.filter_filter]
      apply List.filter_congr
      intro r hr
      by_cases hkr : epKey r = k
      · have hne : ¬ epKey r = g.1 := by
          rw [hkr]
          exact hk
        rw [Bool.eq_iff_iff]
        simp only [Bool.and_eq_true, decide_eq_true_eq]
        constructor
        · exact fun h => h.1
        · exact fun h => ⟨h, Or.inl hne⟩
      · simp [hkr]
    set s1 := { s with
      tv_episodes := (s.tv_episodes.filter
        (fun x => ¬ epKey x = g.1 ∨ isMinForKey s.tv_episodes x)),
      events := (s.events ++ evs1) } with hs1
    have hnd1 : (s1.tv_episodes.map (fun r => r.episode_id)).Nodup :=
      List.Nodup.sublist (List.Sublist.map _ (List.filter_sublist _)) hnd
    have hds1 : ∀ g2 ∈ ds2,
        (s1.tv_episodes.filter (fun r => epKey r = g2.1)).length = g2.2 := by
      intro g2 hg2
      have hne : ¬ g2.1 = g.1 := by
        intro he
        apply hg1notin
        rw [← he]
        exact List.mem_map.mpr ⟨g2, hg2, rfl⟩
      have h4 : s1.tv_episodes.filter (fun r => epKey r = g2.1)
          = s.tv_episodes.filter (fun r => epKey r = g2.1) := hpres g2.1 hne
      rw [h4]
      exact hds g2 (List.mem_cons.mpr (Or.inr hg2))
    have hkeys1 : (ds2.map Prod.fst).Nodup := by
      have h2 : ((g :: ds2).map Prod.fst).Nodup := hkeys
      rw [List.map_cons, List.nodup_cons] at h2
      exact h2.2
    obtain ⟨n2, evs2, hloop⟩ := ih (n + 1 + (g.2 - 1)) s1 hnd1 hds1 hkeys1
    refine ⟨n2, evs1 ++ evs2, ?_⟩
    rw [mFor_cons_ok (fun g => do
        let victims ← dbSelect (fun _ s =>
          (sortDesc ((s.tv_episodes.filter (fun r => epKey r = g.1)).map
            (fun r => r.episode_id))).take (g.2 - 1))
        mFor victims (fun eid =>
          dbAction "DELETE FROM tv_episodes WHERE episode_id = ?"
            (fun s => { s with tv_episodes := (s.tv_episodes.filter
              (fun r => ¬ r.episode_id = eid)) })))
      g ds2 env n (n + 1 + (g.2 - 1)) s s1 hstep, hloop]
    have hF3 : ∀ r, ¬ epKey r = g.1 →
        isMinForKey (s.tv_episodes.filter
          (fun x => ¬ epKey x = g.1 ∨ isMinForKey s.tv_episodes x)) r
        = isMinForKey s.tv_episodes r := by
      intro r hkr
      unfold isMinForKey
      apply all_filter_of_dropped
      intro a ha hpa
      have hag : epKey a = g.1 := by
        by_contra hag
        simp [hag] at hpa
      have hne : ¬ epKey a = epKey r := by
        intro he
        rw [he] at hag
        exact hkr hag
      simp [hne]
    have hfinal : (s.tv_episodes.filter
          (fun x => ¬ epKey x = g.1 ∨ isMinForKey s.tv_episodes x)).filter
        (fun r => ¬ epKey r ∈ ds2.map Prod.fst
          ∨ isMinForKey (s.tv_episodes.filter
            (fun x => ¬ epKey x = g.1 ∨ isMinForKey s.tv_episodes x)) r)
        = s.tv_episodes.filter
          (fun r => ¬ epKey r ∈ (g :: ds2).map Prod.fst
            ∨ isMinForKey s.tv_episodes r) := by
      rw [List.filter_filter]
      apply List.filter_congr
      intro r hr
      rw [Bool.eq_iff_iff]
      simp only [Bool.and_eq_true, decide_eq_true_eq]
      by_cases hkg : epKey r = g.1
      · have hnotds2 : ¬ epKey r ∈ ds2.map Prod.fst := by
          rw [hkg]
          exact hg1notin
        have hmem : epKey r ∈ (g :: ds2).map Prod.fst := by
          rw [List.map_cons, hkg]
          exact List.mem_cons_self _ _
        constructor
        · rintro ⟨_, h2⟩
          rcases h2 with h2 | h2
          · exact absurd hkg h2
          · exact Or.inr h2
        · intro h
          rcases h with h | h
          · exact absurd hmem h
          · exact ⟨Or.inl hnotds2, Or.inr h⟩
      · have hC : isMinForKey (s.tv_episodes.filter
            (fun x => ¬ epKey x = g.1 ∨ isMinForKey s.tv_episodes x)) r
            = isMinForKey s.tv_episodes r := hF3 r hkg
        have hmem : (epKey r ∈ (g :: ds2).map Prod.fst)
            ↔ (epKey r ∈ ds2.map Prod.fst) := by
          rw [List.map_cons]
          constructor
          · intro h
            rcases List.mem_cons.mp h with h | h
            · exact absurd h hkg
            · exact h
          · exact fun h => List.mem_cons.mpr (Or.inr h)
        rw [hC]
        constructor
        · rintro ⟨h1, _⟩
          rcases h1 with h1 | h1
          · exact Or.inl (fun hc => h1 (hmem.mp hc))
          · exact Or.inr h1
        · intro h
          refine ⟨?_, Or.inl hkg⟩
          rcases h with h | h
          · exact Or.inl (fun hd => h (hmem.mpr hd))
          · exact Or.inr h
    rw [hs1]
    dsimp only
    rw [hfinal]
    simp [List.append_assoc]

/-- The group loop of `fix_duplicate_shows`: each listed duplicated
`indexer_id` is cut down to a single (order-dependent) surviving row;
unlisted groups are untouched. -/
theorem shows_groups_loop (env : DbEnv) (hfail : ∀ m, env.failAt m = false)
    (hperm : ∀ l, List.Perm (env.shuffleShows l) l) :
    ∀ (ds : List (Int × Nat)) (n : Nat) (s : DbState),
      (s.tv_shows.map (fun r => r.show_id)).Nodup →
      (∀ g ∈ ds, (s.tv_shows.filter (fun r => r.indexer_id = g.1)).length = g.2) →
      ((ds.map Prod.fst).Nodup) →
      (∀ g ∈ ds, 1 ≤ g.2) →
      ∃ n2 evs shows2, mFor ds (fun g => do
          let victims ← dbSelect (fun env s =>
            ((env.shuffleShows (s.tv_shows.filter (fun r => r.indexer_id = g.1))).map
              (fun r => r.show_id)).take (g.2 - 1))
          mFor victims (fun sid =>
            dbAction "DELETE FROM tv_shows WHERE show_id = ?"
              (fun s => { s with tv_shows := (s.tv_shows.filter
                (fun r => ¬ r.show_id = sid)) }))) env n s
        = .ok ((), n2, { s with tv_shows := shows2, events := (s.events ++ evs) }) ∧
        List.Sublist shows2 s.tv_shows ∧
        (∀ k, k ∈ ds.map Prod.fst →
          (shows2.filter (fun r => r.indexer_id = k)).length = 1) ∧
        (∀ k, ¬ k ∈ ds.map Prod.fst →
          shows2.filter (fun r => r.indexer_id = k)
            = s.tv_shows.filter (fun r => r.indexer_id = k)) := by
  intro ds
  induction ds with
  | nil =>
    intro n s hnd hds hkeys hpos
    refine ⟨n, [], s.tv_shows, ?_, List.Sublist.refl _, ?_, ?_⟩
    · rw [mFor_nil_run]
      simp
    · intro k hk
      simp at hk
    · intro k hk
      rfl
  | cons g ds2 ih =>
    intro n s hnd hds hkeys hpos
    have hg1notin : ¬ g.1 ∈ ds2.map Prod.fst := by
      have h2 : ((g :: ds2).map Prod.fst).Nodup := hkeys
      rw [List.map_cons, List.nodup_cons] at h2
      exact h2.1
    obtain ⟨evs1, shows1, hstep, hsub1, hnd1i, hcnt1, hpres1⟩ :=
      shows_group_step env hfail hperm g n s hnd (hds g (List.mem_cons_self g ds2))
        (hpos g (List.mem_cons_self g ds2))
    set s1 := { s with tv_shows := shows1, events := (s.events ++ evs1) } with hs1
    have hnd1 : (s1.tv_shows.map (fun r => r.show_id)).Nodup := hnd1i
    have hds1 : ∀ g2 ∈ ds2,
        (s1.tv_shows.filter (fun r => r.indexer_id = g2.1)).length = g2.2 := by
      intro g2 hg2
      have hne : ¬ g2.1 = g.1 := by
        intro he
        apply hg1notin
        rw [← he]
        exact List.mem_map.mpr ⟨g2, hg2, rfl⟩
      have h4 : s1.tv_shows.filter (fun r => r.indexer_id = g2.1)
          = s.tv_shows.filter (fun r => r.indexer_id = g2.1) := hpres1 g2.1 hne
      rw [h4]
      exact hds g2 (List.mem_cons.mpr (Or.inr hg2))
    have hkeys1 : (ds2.map Prod.fst).Nodup := by
      have h2 : ((g :: ds2).map Prod.fst).Nodup := hkeys
      rw [List.map_cons, List.nodup_cons] at h2
      exact h2.2
    have hpos1 : ∀ g2 ∈ ds2, 1 ≤ g2.2 :=
      fun g2 hg2 => hpos g2 (List.mem_cons.mpr (Or.inr hg2))
    obtain ⟨n2, evs2, shows2, hloop, hsub2, hcnt2, hpres2⟩ :=
      ih (n + 1 + (g.2 - 1)) s1 hnd1 hds1 hkeys1 hpos1
    refine ⟨n2, evs1 ++ evs2, shows2, ?_, List.Sublist.trans hsub2 hsub1, ?_, ?_⟩
    · rw [mFor_cons_ok (fun g => do
          let victims ← dbSelect (fun env s =>
            ((env.shuffleShows (s.tv_shows.filter (fun r => r.indexer_id = g.1))).map
              (fun r => r.show_id)).take (g.2 - 1))
          mFor victims (fun sid =>
            dbAction "DELETE FROM tv_shows WHERE show_id = ?"
              (fun s => { s with tv_shows := (s.tv_shows.filter
                (fun r => ¬ r.show_id = sid)) })))
        g ds2 env n (n + 1 + (g.2 - 1)) s s1 hstep, hloop]
      rw [hs1]
      dsimp only
      simp [List.append_assoc]
    · intro k hk
      rw [List.map_cons] at hk
      rcases List.mem_cons.mp hk with hk | hk
      · have hknotds2 : ¬ k ∈ ds2.map Prod.fst := by
          rw [hk]
          exact hg1notin
        have h5 : shows2.filter (fun r => r.indexer_id = k)
            = s1.tv_shows.filter (fun r => r.indexer_id = k) := hpres2 k hknotds2
        rw [h5]
        show (shows1.filter (fun r => r.indexer_id = k)).length = 1
        rw [hk]
        exact hcnt1
      · exact hcnt2 k hk
    · intro k hk
      rw [List.map_cons] at hk
      have hk1 : ¬ k = g.1 := by
        intro he
        exact hk (by rw [he]; exact List.mem_cons_self _ _)
      have hk2 : ¬ k ∈ ds2.map Prod.fst := by
        intro he
        exact hk (List.mem_cons.mpr (Or.inr he))
      have h5 : shows2.filter (fun r => r.indexer_id = k)
          = s1.tv_shows.filter (fun r => r.indexer_id = k) := hpres2 k hk2
      rw [h5]
      show shows1.filter (fun r => r.indexer_id = k)
          = s.tv_shows.filter (fun r => r.indexer_id = k)
      exact hpres1 k hk1

/-- Multiplicity of a key among the projections equals the size of the
row class with that key. -/
theorem class_count_proj (f : α → β) [DecidableEq β] (l : List α) (k : β) :
    ((l.map f).filter (fun x => x = k)).length
      = (l.filter (fun a => f a = k)).length := by
  have h2 : (l.filter (fun a => f a = k)).map f = (l.map f).filter (fun x => x = k) :=
    filter_proj_map f (fun x => decide (x = k)) l
  rw [← h2, List.length_map]

/-- A row whose key class is a singleton is trivially the class minimum. -/
theorem isMin_of_unique_class (rows : List EpRow) (r : EpRow) (hr : r ∈ rows)
    (hlen : (rows.filter (fun x => epKey x = epKey r)).length ≤ 1) :
    isMinForKey rows r = true := by
  unfold isMinForKey
  rw [List.all_eq_true]
  intro q hq
  by_cases hqk : epKey q = epKey r
  · have hrm : r ∈ rows.filter (fun x => epKey x = epKey r) :=
      List.mem_filter.mpr ⟨hr, by simp⟩
    have hqm : q ∈ rows.filter (fun x => epKey x = epKey r) :=
      List.mem_filter.mpr ⟨hq, by simp [hqk]⟩
    have heq : q = r := by
      cases hcl : rows.filter (fun x => epKey x = epKey r) with
      | nil =>
        rw [hcl] at hrm
        cases hrm
      | cons a t =>
        rw [hcl] at hrm hqm hlen
        cases t with
        | nil =>
          have h1 : r = a := by simpa using hrm
          have h2 : q = a := by simpa using hqm
          rw [h1, h2]
        | cons b t2 =>
          rw [List.length_cons, List.length_cons] at hlen
          omega
    simp [hqk, heq]
  · simp [hqk]

/-! ### C7 — duplicate-entity repair -/

/-- **C7 (counterexample).**  The claim promises a deterministic,
engine-independent tie-break for duplicate shows.  On one and the same
store — two rows with `indexer_id = 7`, `show_id`s 1 and 2 — the survivor
of `fix_duplicate_shows` is decided by the engine's unordered row
sequence: in insertion order row 2 survives, in reversed order row 1
survives. -/
theorem C7_counterexample :
    (∃ s2, fix_duplicate_shows envOk 0 sDupShows = .ok ((), 3, s2) ∧
      s2.tv_shows.map (fun r => r.show_id) = [2]) ∧
    (∃ s2, fix_duplicate_shows envRev 0 sDupShows = .ok ((), 3, s2) ∧
      s2.tv_shows.map (fun r => r.show_id) = [1]) := by
  constructor
  · exact ⟨_, rfl, rfl⟩
  · exact ⟨_, rfl, rfl⟩

/-- **C7 (amended).**  Duplicate repair under a healthy engine, on stores
with duplicate-free physical row ids.  (1) `fix_duplicate_episodes` is
deterministic: for every `(showid, season, episode)` class exactly the
row with the **smallest** `episode_id` survives (the `COUNT-1` victims
are selected `ORDER BY episode_id DESC`).  (2) `fix_duplicate_shows`
reduces every duplicated `indexer_id` group to exactly **one** surviving
row and leaves unique groups untouched — but the inner `SELECT` has no
`ORDER BY`, so which row survives depends on the engine's row order
(quantified here by an arbitrary permutation `shuffleShows`); the claimed
deterministic lowest-id tie-break does not exist. -/
theorem C7_duplicate_repair :
    (∀ (env : DbEnv) (n : Nat) (s : DbState),
      (∀ m, env.failAt m = false) →
      (s.tv_episodes.map (fun r => r.episode_id)).Nodup →
      ∃ n2 evs, fix_duplicate_episodes env n s
        = .ok ((), n2, { s with
            tv_episodes := (s.tv_episodes.filter (isMinForKey s.tv_episodes)),
            events := (s.events ++ evs) })) ∧
    (∀ (env : DbEnv) (n : Nat) (s : DbState),
      (∀ m, env.failAt m = false) →
      (∀ l, List.Perm (env.shuffleShows l) l) →
      (s.tv_shows.map (fun r => r.show_id)).Nodup →
      ∃ n2 evs shows2, fix_duplicate_shows env n s
        = .ok ((), n2, { s with tv_shows := shows2, events := (s.events ++ evs) }) ∧
        List.Sublist shows2 s.tv_shows ∧
        (∀ k, (shows2.filter (fun r => r.indexer_id = k)).length
          = min ((s.tv_shows.filter (fun r => r.indexer_id = k)).length) 1)) := by
  constructor
  · intro env n s hfail hnd
    have hds : ∀ g ∈ (groupCounts (s.tv_episodes.map epKey)).filter (fun g => 1 < g.2),
        (s.tv_episodes.filter (fun r => epKey r = g.1)).length = g.2 := by
      intro g hg
      have hg2 := groupCounts_mem _ g (List.mem_filter.mp hg).1
      rw [hg2.2]
      exact (class_count_proj epKey s.tv_episodes g.1).symm
    have hkeys : (((groupCounts (s.tv_episodes.map epKey)).filter
        (fun g => 1 < g.2)).map Prod.fst).Nodup :=
      List.Nodup.sublist (List.Sublist.map _ (List.filter_sublist _))
        (groupCounts_keys_nodup _)
    obtain ⟨n2, evs, hloop⟩ := eps_groups_loop env hfail
      ((groupCounts (s.tv_episodes.map epKey)).filter (fun g => 1 < g.2))
      (n + 1) s hnd hds hkeys
    refine ⟨n2, evs, ?_⟩
    have hsel : dbSelect (fun _ s => groupCounts (s.tv_episodes.map epKey)) env n s
        = .ok (groupCounts (s.tv_episodes.map epKey), n + 1, s) :=
      dbSelect_ok _ env n s (hfail n)
    refine (bind_run_ok _ _ env n s _ (n + 1) s hsel).trans (hloop.trans ?_)
    have hfinal : s.tv_episodes.filter
        (fun r => ¬ epKey r ∈ ((groupCounts (s.tv_episodes.map epKey)).filter
            (fun g => 1 < g.2)).map Prod.fst
          ∨ isMinForKey s.tv_episodes r)
        = s.tv_episodes.filter (isMinForKey s.tv_episodes) := by
      apply List.filter_congr
      intro r hr
      by_cases hmem : epKey r ∈ ((groupCounts (s.tv_episodes.map epKey)).filter
          (fun g => 1 < g.2)).map Prod.fst
      · simp [hmem]
      · have hcle : (s.tv_episodes.filter (fun x => epKey x = epKey r)).length ≤ 1 := by
          by_contra hgt
          push_neg at hgt
          apply hmem
          have hkmem : epKey r ∈ s.tv_episodes.map epKey :=
            List.mem_map.mpr ⟨r, hr, rfl⟩
          have hgmem := mem_groupCounts_of_mem (s.tv_episodes.map epKey)
            (epKey r) hkmem
          refine List.mem_map.mpr ⟨(epKey r,
            ((s.tv_episodes.map epKey).filter (fun x => x = epKey r)).length), ?_, rfl⟩
          refine List.mem_filter.mpr ⟨hgmem, ?_⟩
          rw [class_count_proj epKey s.tv_episodes (epKey r)]
          simpa using hgt
        have hmin := isMin_of_unique_class s.tv_episodes r hr hcle
        simp [hmem, hmin]
    rw [hfinal]
  · intro env n s hfail hperm hnd
    have hds : ∀ g ∈ (groupCounts (s.tv_shows.map (fun r => r.indexer_id))).filter
        (fun g => 1 < g.2),
        (s.tv_shows.filter (fun r => r.indexer_id = g.1)).length = g.2 := by
      intro g hg
      have hg2 := groupCounts_mem _ g (List.mem_filter.mp hg).1
      rw [hg2.2]
      exact (class_count_proj (fun r : ShowRow => r.indexer_id) s.tv_shows g.1).symm
    have hkeys : (((groupCounts (s.tv_shows.map (fun r => r.indexer_id))).filter
        (fun g => 1 < g.2)).map Prod.fst).Nodup :=
      List.Nodup.sublist (List.Sublist.map _ (List.filter_sublist _))
        (groupCounts_keys_nodup _)
    have hpos : ∀ g ∈ (groupCounts (s.tv_shows.map (fun r => r.indexer_id))).filter
        (fun g => 1 < g.2), 1 ≤ g.2 := by
      intro g hg
      have h2 := (List.mem_filter.mp hg).2
      simp at h2
      omega
    obtain ⟨n2, evs, shows2, hrun, hsub, hcnt, hpres⟩ := shows_groups_loop env hfail hperm
      ((groupCounts (s.tv_shows.map (fun r => r.indexer_id))).filter (fun g => 1 < g.2))
      (n + 1) s hnd hds hkeys hpos
    refine ⟨n2, evs, shows2, ?_, hsub, ?_⟩
    · have hsel : dbSelect (fun _ s => groupCounts (s.tv_shows.map
          (fun r => r.indexer_id))) env n s
          = .ok (groupCounts (s.tv_shows.map (fun r => r.indexer_id)), n + 1, s) :=
        dbSelect_ok _ env n s (hfail n)
      exact (bind_run_ok _ _ env n s _ (n + 1) s hsel).trans hrun
    · intro k
      by_cases hk : k ∈ ((groupCounts (s.tv_shows.map (fun r => r.indexer_id))).filter
          (fun g => 1 < g.2)).map Prod.fst
      · rw [hcnt k hk]
        obtain ⟨g, hgmem, hgk⟩ := List.mem_map.mp hk
        have hc2 : (s.tv_shows.filter (fun r => r.indexer_id = k)).length = g.2 := by
          rw [← hgk]
          exact hds g hgmem
        have hgt : 1 < g.2 := by
          have h2 := (List.mem_filter.mp hgmem).2
          simpa using h2
        rw [hc2]
        omega
      · rw [hpres k hk]
        have hcle : (s.tv_shows.filter (fun r => r.indexer_id = k)).length ≤ 1 := by
          by_contra hgt
          push_neg at hgt
          apply hk
          have hne : s.tv_shows.filter (fun r => r.indexer_id = k) ≠ [] := by
            intro he
            rw [he] at hgt
            simp at hgt
          obtain ⟨r0, hr0⟩ := List.exists_mem_of_ne_nil _ hne
          have hr0f := List.mem_filter.mp hr0
          have hkmem : k ∈ s.tv_shows.map (fun r => r.indexer_id) := by
            refine List.mem_map.mpr ⟨r0, hr0f.1, ?_⟩
            simpa using hr0f.2
          have hgmem := mem_groupCounts_of_mem (s.tv_shows.map
            (fun r => r.indexer_id)) k hkmem
          refine List.mem_map.mpr ⟨(k,
            ((s.tv_shows.map (fun r => r.indexer_id)).filter
              (fun x => x = k)).length), ?_, rfl⟩
          refine List.mem_filter.mpr ⟨hgmem, ?_⟩
          rw [class_count_proj (fun r : ShowRow => r.indexer_id) s.tv_shows k]
          simpa using hgt
        omega

/-- **C7 (witness).**  The amended theorem at work on concrete stores:
the duplicate-episode store keeps exactly its per-class minimum ids, and
the duplicate-show store (insertion row order) is cut to one row per
`indexer_id`. -/
theorem C7_duplicate_repair_witness :
    ((sDupEps.tv_episodes.map (fun r => r.episode_id)).Nodup ∧
      ∃ n2 evs, fix_duplicate_episodes envOk 0 sDupEps
        = .ok ((), n2, { sDupEps with
            tv_episodes := (sDupEps.tv_episodes.filter
              (isMinForKey sDupEps.tv_episodes)),
            events := (sDupEps.events ++ evs) })) ∧
    ((sDupShows.tv_shows.map (fun r => r.show_id)).Nodup ∧
      ∃ n2 evs shows2, fix_duplicate_shows envOk 0 sDupShows
        = .ok ((), n2, { sDupShows with
            tv_shows := shows2,
            events := (sDupShows.events ++ evs) }) ∧
        List.Sublist shows2 sDupShows.tv_shows ∧
        (∀ k, (shows2.filter (fun r => r.indexer_id = k)).length
          = min ((sDupShows.tv_shows.filter (fun r => r.indexer_id = k)).length) 1)) :=
  ⟨⟨by decide, C7_duplicate_repair.1 envOk 0 sDupEps (fun m => rfl) (by decide)⟩,
    ⟨by decide, C7_duplicate_repair.2 envOk 0 sDupShows (fun m => rfl)
      (fun l => List.Perm.refl l) (by decide)⟩⟩

/-- **C2.**  On a store stamped `db_version = 45 > MAX_DB_VERSION = 44`:
`InitialSchema.execute` only logs the diagnostic and returns normally
(first conjunct: result is `.ok`, no `sys.exit`), and the full upgrade
driver does nothing at all (second conjunct: every `test` passes, so not
even the diagnostic runs) — the process does **not** terminate.  The
config store behaves as claimed: a config version beyond the expected one
aborts before any backup or transform (last conjuncts). -/
theorem C2_db_too_new_does_not_exit :
    initialSchema_execute envOk 0 sTooNew =
      .ok ((), 0, { sTooNew with events := [DbEvent.logError] }) ∧
    db_upgrade envOk 0 sTooNew = .ok ((), 0, sTooNew) ∧
    (migrate_config (fun _ => true) (fun _ u => some u) 11 10 ()).aborted = true ∧
    (migrate_config (fun _ => true) (fun _ u => some u) 11 10 ()).events = [] := by
  refine ⟨rfl, rfl, ?_, ?_⟩ <;> rfl

/-! ### C8 — tolerance of missing source keys -/

/-- **C8, counterexample.**  `_migrate_v10` on a fresh (empty) config does
not treat the missing keys as defaults: the very first direct index
`config['General']['git_reset_branches']` raises `KeyError` and the step
aborts. -/
theorem C8_counterexample : migrate_v10 envV10 [] = .error () := by
  rfl

/-- **C8, amended.**  Reads made through the `check_setting_*` helpers do
tolerate missing keys (a missing key yields the default, written back,
with no exception — first two conjuncts, for `check_int` and `check_str`);
`_migrate_v10` tolerates missing `TorrentRss`/`Newznab` sections through
its `except KeyError` handlers (remaining conjuncts), but its direct
csv-to-list indexing raises `KeyError` on any missing key (the
counterexample), so a fresh install aborts that step. -/
theorem C8_missing_key_tolerance :
    (∀ (cfg : Config) (sec key : String) (dv : Int), cfgLookup cfg sec key = none →
      check_int cfg sec key dv = (dv, cfgSet cfg sec key (.int dv))) ∧
    (∀ (decrypt : CVal → Nat → Option String) (encrypt : String → Nat → String)
       (aev : Nat) (cfg : Config) (sec key : String) (dv : String),
      cfgLookup cfg sec key = none →
      check_str decrypt encrypt aev cfg sec key dv none =
        (dv, cfgSet cfg sec key
          (.str (encrypt dv (if pyContains key "password" then aev else 0))))) ∧
    (∃ r, migrate_v10 envV10 cfgV10NoProviders = .ok r ∧
      r.torrentrss_providers = [] ∧ r.torrentrss_list = none ∧
      r.newznab_list = none ∧ r.newznab_providers = []) := by
  refine ⟨?_, ?_, ?_⟩
  · intro cfg sec key dv h
    simp [check_int, h]
  · intro decrypt encrypt aev cfg sec key dv h
    simp [check_str, h]
  · exact ⟨_, rfl, rfl, rfl, rfl, rfl⟩

/-- **C8, witness** for the amended theorem: the two `check_*` clauses at
concrete missing keys (the section itself being created). -/
theorem C8_missing_key_tolerance_witness :
    check_int [] "General" "naming_dates" 7 =
      (7, [("General", [("naming_dates", CVal.int 7)])]) ∧
    check_str decryptId encryptId 2 [] "Plex" "plex_host" "" none =
      ("", [("Plex", [("plex_host", CVal.str "")])]) := by
  constructor
  · exact (C8_missing_key_tolerance.1 [] "General" "naming_dates" 7 rfl).trans (by rfl)
  · exact (C8_missing_key_tolerance.2.1 decryptId encryptId 2 [] "Plex" "plex_host" ""
      rfl).trans (by rfl)

/-! ### C10 — the write-back frame effect of the `check_*` helpers

The transcribed dead guard `if str(my_val) == str(None)` of `check_int`
needs the fact that the decimal rendering of an integer is never the
string `"None"`. -/

theorem digitChar_ne_N (m : Nat) : Nat.digitChar m ≠ 'N' := by
  rcases Nat.lt_or_ge m 16 with h | h
  · interval_cases m <;> decide
  · have hne : ∀ k : Nat, k < 16 → ¬ m = k := by omega
    have h0 : Nat.digitChar m = '*' := by
      unfold Nat.digitChar
      rw [if_neg (hne 0 (by norm_num)), if_neg (hne 1 (by norm_num)),
          if_neg (hne 2 (by norm_num)), if_neg (hne 3 (by norm_num)),
          if_neg (hne 4 (by norm_num)), if_neg (hne 5 (by norm_num)),
          if_neg (hne 6 (by norm_num)), if_neg (hne 7 (by norm_num)),
          if_neg (hne 8 (by norm_num)), if_neg (hne 9 (by norm_num)),
          if_neg (hne 10 (by norm_num)), if_neg (hne 11 (by norm_num)),
          if_neg (hne 12 (by norm_num)), if_neg (hne 13 (by norm_num)),
          if_neg (hne 14 (by norm_num)), if_neg (hne 15 (by norm_num))]
    rw [h0]
    decide

theorem lookup_setKey (m : Medusa.Section) (key : String) (v : CVal) :
    (setKey m key v).lookup key = some v := by
  induction m with
  | nil => simp [setKey, List.lookup]
  | cons q rest ih =>
    obtain ⟨k, w⟩ := q
    by_cases hk : k = key
    · subst hk
      simp [setKey, List.lookup]
    · have hbeq : (key == k) = false := by
        simp only [beq_eq_false_iff_ne, ne_eq]
        exact fun h => hk h.symm
      simp [setKey, hk, List.lookup, hbeq, ih]

theorem cfgLookup_cfgSet (cfg : Config) (sec key : String) (v : CVal) :
    cfgLookup (cfgSet cfg sec key v) sec key = some v := by
  induction cfg with
  | nil => simp [cfgSet, cfgLookup, List.lookup, lookup_setKey]
  | cons p rest ih =>
    obtain ⟨s0, m⟩ := p
    by_cases hs : s0 = sec
    · subst hs
      simp [cfgSet, cfgLookup, List.lookup, lookup_setKey]
    · have hbeq : (sec == s0) = false := by
        simp only [beq_eq_false_iff_ne, ne_eq]
        exact fun h => hs h.symm
      simpa [cfgSet, hs, cfgLookup, List.lookup, hbeq] using ih

theorem toDigitsCore_ne_N (fuel : Nat) :
    ∀ (n : Nat) (ds : List Char), (∀ c ∈ ds, c ≠ 'N') →
      ∀ c ∈ Nat.toDigitsCore 10 fuel n ds, c ≠ 'N' := by
  induction fuel with
  | zero => intro n ds h c hc; exact h c hc
  | succ fuel ih =>
    intro n ds h c hc
    simp only [Nat.toDigitsCore] at hc
    split at hc
    · rcases List.mem_cons.mp hc with h1 | h1
      · subst h1; exact digitChar_ne_N _
      · exact h c h1
    · refine ih (n / 10) _ ?_ c hc
      intro c2 hc2
      rcases List.mem_cons.mp hc2 with h2 | h2
      · subst h2; exact digitChar_ne_N _
      · exact h c2 h2

theorem natRepr_ne_None (m : Nat) : Nat.repr m ≠ "None" := by
  intro h
  have hd : Nat.toDigits 10 m = "None".data := congrArg String.data h
  have : 'N' ∈ Nat.toDigits 10 m := by rw [hd]; decide
  exact toDigitsCore_ne_N (m + 1) m [] (by intro c hc; cases hc) 'N' this rfl

theorem toString_int_ne_None (n : Int) : toString n ≠ "None" := by
  cases n with
  | ofNat m => exact natRepr_ne_None m
  | negSucc m =>
    intro h
    have hd := congrArg String.data h
    have : ("-" ++ toString (m + 1)).data = '-' :: (toString (m + 1)).data := by
      cases hts : toString (m + 1)
      rfl
    rw [show toString (Int.negSucc m) = "-" ++ toString (m + 1) from rfl, this] at hd
    cases hd

/-- **C10.**  The `check_*` lookups have a write-back frame effect:
* `check_int` hit: section and key present, value parses (after the
  `'true'`/`'false'` coercion) — the parsed value is returned and the
  config is returned unchanged;
* `check_int` parse failure or missing key — the default is returned and
  written into `config[section][key]`;
* the write-back creates the section when absent and is readable back;
* `check_str` hit (no `valid_values`): the decrypted value is returned,
  config unchanged;
* `check_str` missing key: the default is returned, and what is written is
  the default passed through the opaque `encrypt` at the item's encryption
  version — verbatim the default whenever that encryption is the identity
  (e.g. non-password items at version 0). -/
theorem C10_check_helpers_write_back :
    (∀ (cfg : Config) (sec key : String) (dv : Int) (v : CVal) (n : Int),
      cfgLookup cfg sec key = some v → pyIntOf (pyCoerceTF v) = some n →
      check_int cfg sec key dv = (n, cfg)) ∧
    (∀ (cfg : Config) (sec key : String) (dv : Int) (v : CVal),
      cfgLookup cfg sec key = some v → pyIntOf (pyCoerceTF v) = none →
      check_int cfg sec key dv = (dv, cfgSet cfg sec key (.int dv))) ∧
    (∀ (cfg : Config) (sec key : String) (dv : Int),
      cfgLookup cfg sec key = none →
      check_int cfg sec key dv = (dv, cfgSet cfg sec key (.int dv))) ∧
    (∀ (cfg : Config) (sec key : String) (v : CVal),
      cfgLookup (cfgSet cfg sec key v) sec key = some v) ∧
    (∀ (decrypt : CVal → Nat → Option String) (encrypt : String → Nat → String)
       (aev : Nat) (cfg : Config) (sec key dv : String) (v : CVal) (s : String),
      cfgLookup cfg sec key = some v →
      decrypt v (if pyContains key "password" then aev else 0) = some s → s ≠ "None" →
      check_str decrypt encrypt aev cfg sec key dv none = (s, cfg)) ∧
    (∀ (decrypt : CVal → Nat → Option String) (encrypt : String → Nat → String)
       (aev : Nat) (cfg : Config) (sec key dv : String),
      cfgLookup cfg sec key = none →
      check_str decrypt encrypt aev cfg sec key dv none =
        (dv, cfgSet cfg sec key
          (.str (encrypt dv (if pyContains key "password" then aev else 0)))) ∧
      (encrypt dv (if pyContains key "password" then aev else 0) = dv →
        check_str decrypt encrypt aev cfg sec key dv none =
          (dv, cfgSet cfg sec key (.str dv)))) := by
  refine ⟨?_, ?_, ?_, ?_, ?_, ?_⟩
  · intro cfg sec key dv v n hv hn
    simp [check_int, hv, hn, toString_int_ne_None n]
  · intro cfg sec key dv v hv hn
    simp [check_int, hv, hn]
  · intro cfg sec key dv h
    simp [check_int, h]
  · intro cfg sec key v
    exact cfgLookup_cfgSet cfg sec key v
  · intro decrypt encrypt aev cfg sec key dv v s hv hdec hne
    simp [check_str, hv, hdec, hne]
  · intro decrypt encrypt aev cfg sec key dv h
    constructor
    · simp [check_str, h]
    · intro hid
      simp [check_str, h, hid]

/-- **C10, witness**: every clause at a concrete input. -/
theorem C10_check_helpers_write_back_witness :
    check_int [("General", [("x", CVal.str "5")])] "General" "x" 7 =
      (5, [("General", [("x", CVal.str "5")])]) ∧
    check_int [("General", [("x", CVal.str "oops")])] "General" "x" 7 =
      (7, [("General", [("x", CVal.int 7)])]) ∧
    check_int [] "General" "x" 7 = (7, [("General", [("x", CVal.int 7)])]) ∧
    cfgLookup (cfgSet [] "S" "k" (CVal.int 3)) "S" "k" = some (CVal.int 3) ∧
    check_str decryptId encryptId 2 [("S", [("k", CVal.str "v")])] "S" "k" "d" none =
      ("v", [("S", [("k", CVal.str "v")])]) ∧
    check_str decryptId encryptId 2 [] "S" "k" "d" none =
      ("d", [("S", [("k", CVal.str "d")])]) := by
  refine ⟨?_, ?_, ?_, ?_, ?_, ?_⟩
  · exact C10_check_helpers_write_back.1 [("General", [("x", CVal.str "5")])]
      "General" "x" 7 (CVal.str "5") 5 rfl rfl
  · exact (C10_check_helpers_write_back.2.1 [("General", [("x", CVal.str "oops")])]
      "General" "x" 7 (CVal.str "oops") rfl rfl).trans (by rfl)
  · exact (C10_check_helpers_write_back.2.2.1 [] "General" "x" 7 rfl).trans (by rfl)
  · exact C10_check_helpers_write_back.2.2.2.1 [] "S" "k" (CVal.int 3)
  · exact C10_check_helpers_write_back.2.2.2.2.1 decryptId encryptId 2
      [("S", [("k", CVal.str "v")])] "S" "k" "d" (CVal.str "v") "v" rfl rfl (by decide)
  · exact ((C10_check_helpers_write_back.2.2.2.2.2 decryptId encryptId 2 [] "S" "k" "d"
      rfl).2 rfl).trans (by rfl)

end Medusa
